import Mathlib

set_option maxRecDepth 8000

namespace NDB

/-! Shallow embedding of the jp-ndb-medicine pipeline: the data model
(`FileInfo`, pandas frames), the filename convention and its parser, the
catalog filter, the per-sheet transform and the load facade. -/

/-- A Python value held in a DataFrame cell: a string, an integer, a float,
NaN, or a two-string tuple (a stacked column key). A float is kept as the
exact decimal `m / 10 ^ e` it was parsed from; the pipeline only ever
parses floats, it never computes with them. -/
inductive Val where
  | s (v : String)
  | i (v : Int)
  | f (m : Int) (e : Nat)
  | nan
  | pair (a b : String)
deriving DecidableEq, Repr

/-- A column label: a plain name, or a two-level header pair as produced by
reading a sheet with a two-row header. -/
inductive ColKey where
  | name (v : String)
  | pair (a b : String)
deriving DecidableEq, Repr

/-- A pandas DataFrame: column labels plus rows of cells. -/
structure Frame where
  cols : List ColKey
  rows : List (List Val)
deriving DecidableEq, Repr

/-- A DataFrame is rectangular: every row has one cell per column. -/
def Frame.Rect (fr : Frame) : Prop :=
  ∀ r ∈ fr.rows, r.length = fr.cols.length

instance (fr : Frame) : Decidable fr.Rect := by
  unfold Frame.Rect; infer_instance

/-- Substring test (Python `needle in hay`). -/
def containsStr (hay needle : String) : Bool :=
  hay.data.tails.any (fun t => needle.data.isPrefixOf t)

/-- The module-level helper that returns the first keyword contained in the
text, or the default when none is. -/
def search (keywords : List String) (text : String) (d : String) : String :=
  match keywords.filter (fun k => containsStr text k) with
  | [] => d
  | k :: _ => k

def dosage_values : List String := ["内服", "外用", "注射", "歯科用薬剤"]

def medical_class_values : List String := ["外来（院内）", "外来（院外）", "入院"]

def medical_class_default_value : String := ""

def method_values : List String := ["性年齢別", "都道府県別", "診療月別"]

def index_cols : List String :=
  ["薬効分類", "薬効分類名称", "医薬品コード", "医薬品名", "単位",
   "薬価基準収載医薬品コード", "薬価", "後発品区分"]

/-- The catalog record for one downloadable workbook. -/
structure FileInfo where
  nth : Int
  dosage : String
  medical_class : String
  method : String
  url : String
deriving DecidableEq, Repr

/-- Python format spec `{:0>Wd}`: decimal string left-padded with zeros. -/
def padZ (w : Nat) (n : Int) : String :=
  let s := toString n
  String.mk (List.replicate (w - s.length) '0') ++ s

/-- `FileInfo.__str__`: the saved-file naming convention. -/
def FileInfo.str (fi : FileInfo) : String :=
  padZ 2 fi.nth ++ "【" ++ fi.dosage ++ "】" ++ fi.medical_class ++ "_" ++
    fi.method ++ "薬効分類別数量"

/-- What `_parse_to_fileinfo` actually builds: regex captures, so the cycle
group and the care-setting group are optional strings, not typed fields. -/
structure ParsedInfo where
  nth : Option String
  dosage : String
  medical_class : Option String
  method : String
  url : String
deriving DecidableEq, Repr

/-- Consume a literal from the front of the character stream. -/
def matchLit (lit : String) (cs : List Char) : Option (List Char) :=
  if lit.data.isPrefixOf cs then some (cs.drop lit.length) else none

/-- Ordered alternation of literals, first match wins (the alternatives used
by the filename regex are pairwise non-overlapping at any position). -/
def matchAlt (lits : List String) (cs : List Char) : Option (String × List Char) :=
  match lits with
  | [] => none
  | l :: ls =>
    match matchLit l cs with
    | some rest => some (l, rest)
    | none => matchAlt ls cs

/-- Tail of the filename regex: the aggregation method followed by the fixed
literal. The trailing optional group and any residual characters are
unconstrained because the pattern is only anchored at the start. -/
def parseTail (g1 : Option String) (dos : String) (mc : Option String) (url : String)
    (cs : List Char) : Option ParsedInfo := do
  let (mth, cs2) ← matchAlt method_values cs
  let _ ← matchLit "薬効分類別数量" cs2
  pure ⟨g1, dos, mc, mth, url⟩

/-- Body of the filename regex after the optional leading two digits. -/
def parseCore (g1 : Option String) (url : String) (cs : List Char) : Option ParsedInfo := do
  let cs2 ← matchLit "【" cs
  let (dos, cs3) ← matchAlt dosage_values cs2
  let cs4 ← matchLit "】" cs3
  (do
    let (mcv, cs5) ← matchAlt medical_class_values cs4
    let cs6 ← matchLit "_" cs5
    parseTail g1 dos (some mcv) url cs6)
  <|> (do
    let cs5 ← matchLit "_" cs4
    parseTail g1 dos none url cs5)

/-- `_parse_to_fileinfo`: match the filename stem against the saved-name
pattern; `none` models the `None` return on a non-conforming name. -/
def parse_to_fileinfo (stem url : String) : Option ParsedInfo :=
  match stem.data with
  | c1 :: c2 :: rest =>
    if c1.isDigit && c2.isDigit then
      parseCore (some (String.mk [c1, c2])) url rest <|> parseCore none url stem.data
    else parseCore none url stem.data
  | _ => parseCore none url stem.data

/-- An optional scalar-or-list integer argument. -/
inductive IntFilter where
  | none
  | scalar (n : Int)
  | many (l : List Int)
deriving DecidableEq, Repr

/-- An optional scalar-or-list string argument. -/
inductive StrFilter where
  | none
  | scalar (v : String)
  | many (l : List String)
deriving DecidableEq, Repr

/-- Python truthiness of the argument (`if nth:`): `None`, `0` and `[]`
are falsy. -/
def IntFilter.truthy : IntFilter → Bool
  | .none => false
  | .scalar n => n != 0
  | .many l => !l.isEmpty

/-- Python truthiness of the argument: `None`, `""` and `[]` are falsy. -/
def StrFilter.truthy : StrFilter → Bool
  | .none => false
  | .scalar v => v != ""
  | .many l => !l.isEmpty

/-- Lines 284-295: the `if nth: ... elif year: ...` narrowing block. -/
def stageNthYear (nth year : IntFilter) (fs : List FileInfo) : List FileInfo :=
  if nth.truthy then
    match nth with
    | .scalar n => fs.filter (fun f => f.nth == n)
    | .many l => fs.filter (fun f => l.contains f.nth)
    | .none => fs
  else if year.truthy then
    match year with
    | .scalar y => fs.filter (fun f => f.nth == y - 2013)
    | .many l => fs.filter (fun f => (l.map (fun y => y - 2013)).contains f.nth)
    | .none => fs
  else fs

/-- Lines 297-301: the dosage narrowing block. -/
def stageDosage (dosage : StrFilter) (fs : List FileInfo) : List FileInfo :=
  if dosage.truthy then
    match dosage with
    | .scalar v => fs.filter (fun f => f.dosage == v)
    | .many l => fs.filter (fun f => l.contains f.dosage)
    | .none => fs
  else fs

/-- Lines 303-307: the care-setting narrowing block, letting the default
(unspecified) care-setting match anything. -/
def stageMedical (medical_class : StrFilter) (fs : List FileInfo) : List FileInfo :=
  if medical_class.truthy then
    match medical_class with
    | .scalar v =>
      fs.filter (fun f => f.medical_class == v || f.medical_class == medical_class_default_value)
    | .many l =>
      fs.filter (fun f => l.contains f.medical_class || f.medical_class == medical_class_default_value)
    | .none => fs
  else fs

/-- Lines 309-313: the aggregation-method narrowing block. -/
def stageMethod (method : StrFilter) (fs : List FileInfo) : List FileInfo :=
  if method.truthy then
    match method with
    | .scalar v => fs.filter (fun f => f.method == v)
    | .many l => fs.filter (fun f => l.contains f.method)
    | .none => fs
  else fs

/-- `_filter_files`: sequential narrowing of the catalog. -/
def filter_files (files : List FileInfo) (nth year : IntFilter)
    (dosage medical_class method : StrFilter) : List FileInfo :=
  stageMethod method (stageMedical medical_class (stageDosage dosage
    (stageNthYear nth year files)))

/-- Row-wise effectful map over a list; `none` models a raised exception. -/
def omap (f : α → Option β) : List α → Option (List β)
  | [] => some []
  | a :: l =>
    match f a, omap f l with
    | some b, some bs => some (b :: bs)
    | _, _ => none

/-- Index of a column label in a label list. -/
def idxOf? (c : ColKey) : List ColKey → Option Nat
  | [] => Option.none
  | k :: ks => if k = c then some 0 else (idxOf? c ks).map (· + 1)

/-- The cells of one column, in row order. -/
def getColVals (fr : Frame) (c : ColKey) : List Val :=
  match idxOf? c fr.cols with
  | some i => fr.rows.map (fun r => r.getD i .nan)
  | Option.none => []

/-- Pointwise update of an existing column. -/
def mapCol (fr : Frame) (c : ColKey) (f : Val → Val) : Frame :=
  match idxOf? c fr.cols with
  | some i => ⟨fr.cols, fr.rows.map (fun r => r.set i (f (r.getD i .nan)))⟩
  | Option.none => fr

/-- Column assignment: overwrite in place when the label exists, else append
a new last column. -/
def assignCol (fr : Frame) (c : ColKey) (vs : List Val) : Frame :=
  match idxOf? c fr.cols with
  | some i => ⟨fr.cols, fr.rows.zipWith (fun r v => r.set i v) vs⟩
  | Option.none => ⟨fr.cols ++ [c], fr.rows.zipWith (fun r v => r ++ [v]) vs⟩

/-- Assign a constant-valued column. -/
def assignConst (fr : Frame) (c : ColKey) (v : Val) : Frame :=
  assignCol fr c (fr.rows.map (fun _ => v))

/-- Insert an element at a position, appending when the list is shorter. -/
def insIdx {α : Type _} : Nat → α → List α → List α
  | 0, a, l => a :: l
  | _ + 1, a, [] => [a]
  | n + 1, a, x :: xs => x :: insIdx n a xs

/-- Lines 195-196: when no column has the unit header, insert an empty unit
column at position 4 (the membership test on a two-row header looks at the
first header level). -/
def insertUnit (fr : Frame) : Option Frame :=
  if fr.cols.any (fun c =>
      match c with
      | .name v => v == "単位"
      | .pair a _ => a == "単位") then some fr
  else if fr.cols.length < 4 then Option.none
  else some ⟨insIdx 4 (.name "単位") fr.cols, fr.rows.map (fun r => insIdx 4 .nan r)⟩

/-- Line 199: rename the leading columns to the canonical identification
names plus the synthetic grand-total key; fails if fewer than nine columns
(length-mismatched assignment raises). -/
def renameCols (fr : Frame) : Option Frame :=
  if 9 ≤ fr.cols.length then
    some ⟨(index_cols.map ColKey.name) ++ [ColKey.pair "総計" "総計"] ++ fr.cols.drop 9, fr.rows⟩
  else Option.none

/-- Forward-fill one column downward. -/
def ffillAt (i : Nat) (prev : Val) : List (List Val) → List (List Val)
  | [] => []
  | r :: rs =>
    let v := r.getD i .nan
    let w := if v = .nan then prev else v
    r.set i w :: ffillAt i w rs

/-- Line 202: forward-fill the two classification columns. -/
def ffill2 (fr : Frame) : Frame :=
  match idxOf? (.name "薬効分類") fr.cols, idxOf? (.name "薬効分類名称") fr.cols with
  | some i1, some i2 => ⟨fr.cols, ffillAt i2 .nan (ffillAt i1 .nan fr.rows)⟩
  | _, _ => fr

/-- A stacked column key as a cell value. -/
def keyVal : ColKey → Val
  | .name v => .s v
  | .pair a b => .pair a b

/-- Lines 205-210: set_index on the eight identification columns (positions
0-7 after renaming), stack the remaining columns dropping blank cells, and
rename to the pivot-key / quantity pair. Cells are emitted row-major in
column order. -/
def unpivot (fr : Frame) : Frame :=
  ⟨(index_cols.map ColKey.name) ++ [ColKey.name "集計単位", ColKey.name "処方数量"],
   fr.rows.flatMap (fun r =>
     ((fr.cols.drop 8).zip (r.drop 8)).filterMap (fun p =>
       if p.2 = .nan then Option.none else some (r.take 8 ++ [keyVal p.1, p.2])))⟩

/-- Unpacking a pivot-key cell into two strings; a two-character string also
unpacks, anything else raises. -/
def unpackPair : Val → Option (String × String)
  | .pair a b => some (a, b)
  | .s v =>
    match v.data with
    | [c1, c2] => some (String.mk [c1], String.mk [c2])
    | _ => Option.none
  | _ => Option.none

/-- Two-column assignment from the list of pivot-key tuples. -/
def splitKeyCol (fr : Frame) (c c1 c2 : ColKey) : Option Frame :=
  (omap unpackPair (getColVals fr c)).map (fun ps =>
    assignCol (assignCol fr c1 (ps.map (fun p => Val.s p.1))) c2 (ps.map (fun p => Val.s p.2)))

/-- Assign a column computed by applying a fallible function to another. -/
def applyNew (fr : Frame) (src dst : ColKey) (f : Val → Option Val) : Option Frame :=
  (omap f (getColVals fr src)).map (fun vs => assignCol fr dst vs)

/-- Column projection: fails (KeyError) when a requested label is missing. -/
def selectCols (cs : List ColKey) (fr : Frame) : Option Frame :=
  (omap (fun c => idxOf? c fr.cols) cs).map (fun idxs =>
    ⟨cs, fr.rows.map (fun r => idxs.map (fun i => r.getD i .nan))⟩)

/-- Characters Python treats as whitespace in the texts at hand. -/
def isPySpace (c : Char) : Bool :=
  c == ' ' || c == '\t' || c == '\n' || c == '\r' || c == '\x0b' || c == '\x0c' || c == '　'

def digitsToNat (ds : List Char) : Nat :=
  ds.foldl (fun a c => a * 10 + (c.toNat - 48)) 0

/-- Python `int(str)`: optional surrounding whitespace, optional sign,
decimal digits; anything else raises. -/
def parsePyInt (v : String) : Option Int :=
  let cs := v.data.dropWhile isPySpace
  let p : Int × List Char :=
    if cs.head? = some '-' then (-1, cs.tail)
    else if cs.head? = some '+' then (1, cs.tail)
    else (1, cs)
  let ds := p.2.takeWhile Char.isDigit
  let rest := p.2.dropWhile Char.isDigit
  if ds.isEmpty || !(rest.all isPySpace) then Option.none
  else some (p.1 * digitsToNat ds)

/-- Python `float(str)` on the plain decimal forms occurring in this data:
optional sign, digits with an optional fractional part. The result is the
exact decimal as a mantissa / scale pair. -/
def parsePyFloat (v : String) : Option (Int × Nat) :=
  let cs := v.data.dropWhile isPySpace
  let p : Int × List Char :=
    if cs.head? = some '-' then (-1, cs.tail)
    else if cs.head? = some '+' then (1, cs.tail)
    else (1, cs)
  let ip := p.2.takeWhile Char.isDigit
  let r1 := p.2.dropWhile Char.isDigit
  match r1 with
  | '.' :: t =>
    let fp := t.takeWhile Char.isDigit
    let r2 := t.dropWhile Char.isDigit
    if (ip.isEmpty && fp.isEmpty) || !(r2.all isPySpace) then Option.none
    else
      some (p.1 * ((digitsToNat ip : Int) * (10 : Int) ^ fp.length + (digitsToNat fp : Int)),
            fp.length)
  | _ =>
    if ip.isEmpty || !(r1.all isPySpace) then Option.none
    else some (p.1 * (digitsToNat ip : Int), 0)

/-- Two's-complement wrap of an 8-bit numpy cast. -/
def wrap8 (n : Int) : Int := (n + 128) % 256 - 128

/-- Two's-complement wrap of a 16-bit numpy cast. -/
def wrap16 (n : Int) : Int := (n + 32768) % 65536 - 32768

def castInt8 : Val → Option Val
  | .i n => some (.i (wrap8 n))
  | .s v => (parsePyInt v).map (fun n => .i (wrap8 n))
  | .f m e => some (.i (wrap8 (m.tdiv ((10 : Int) ^ e))))
  | _ => Option.none

def castInt16 : Val → Option Val
  | .i n => some (.i (wrap16 n))
  | .s v => (parsePyInt v).map (fun n => .i (wrap16 n))
  | .f m e => some (.i (wrap16 (m.tdiv ((10 : Int) ^ e))))
  | _ => Option.none

def castFloat : Val → Option Val
  | .s v => (parsePyFloat v).map (fun p => .f p.1 p.2)
  | .i n => some (.f n 0)
  | .f m e => some (.f m e)
  | .nan => some .nan
  | .pair _ _ => Option.none

/-- astype on one column; a failed conversion raises. -/
def castCol (fr : Frame) (c : ColKey) (f : Val → Option Val) : Option Frame :=
  match idxOf? c fr.cols with
  | Option.none => Option.none
  | some i =>
    (omap (fun r => (f (r.getD i .nan)).map (fun v => r.set i v)) fr.rows).map
      (fun rs => ⟨fr.cols, rs⟩)

/-- Strip every gender-suffix character (str.replace with empty target). -/
def stripSei (v : String) : String := String.mk (v.data.filter (fun c => c ≠ '性'))

def stripSeiV : Val → Val
  | .s v => .s (stripSei v)
  | _ => .nan

/-- Numeric age floor: -1 for the total band, else the leading digits. -/
def ageFloorStr (v : String) : Option Int :=
  if v = "総計" then some (-1)
  else
    let ds := v.data.takeWhile Char.isDigit
    if ds.isEmpty then Option.none else some (digitsToNat ds)

def ageFloorV : Val → Option Val
  | .s v => (ageFloorStr v).map .i
  | _ => Option.none

/-- Lines 242-250: derive the calendar year-month string from a reporting
month token: drop the trailing month-marker character, parse as int, and
pick fiscal year + 1 for months before April. -/
def monthYm (nth : Int) (m : String) : Option String :=
  if m = "総計" then some "総計"
  else
    (parsePyInt (String.mk m.data.dropLast)).map (fun mo =>
      let year := nth + 2013
      if mo < 4 then padZ 4 (year + 1) ++ "/" ++ padZ 2 mo
      else padZ 4 year ++ "/" ++ padZ 2 mo)

def monthYmV (nth : Int) : Val → Option Val
  | .s v => (monthYm nth v).map .s
  | _ => Option.none

/-- The below-threshold flag: 1 where the quantity cell is the literal
suppression marker, else 0. -/
def flagV (v : Val) : Val := if v = .s "-" then .i 1 else .i 0

/-- mask + fillna on the quantity column: the suppression marker (and any
blank) becomes the string "0". -/
def maskQty (v : Val) : Val :=
  if v = .s "-" then .s "0" else if v = .nan then .s "0" else v

/-- Line 233: the total region-code token is rewritten to "00". -/
def prefMask (v : Val) : Val := if v = .s "総計" then .s "00" else v

/-- Lines 212-253: the aggregation-method specific column derivation. -/
def methodStep (df0 : Frame) (fi : FileInfo) : Option Frame :=
  if fi.method = "性年齢別" then do
    let df ← splitKeyCol df0 (.name "集計単位") (.name "性別") (.name "年齢区間")
    let df := mapCol df (.name "性別") stripSeiV
    let df ← applyNew df (.name "年齢区間") (.name "年齢") ageFloorV
    selectCols ((index_cols.map ColKey.name) ++
      [.name "性別", .name "年齢", .name "年齢区間", .name "処方数量"]) df
  else if fi.method = "都道府県別" then do
    let df ← splitKeyCol df0 (.name "集計単位") (.name "都道府県コード") (.name "都道府県名")
    let df := mapCol df (.name "都道府県コード") prefMask
    selectCols ((index_cols.map ColKey.name) ++
      [.name "都道府県コード", .name "都道府県名", .name "処方数量"]) df
  else if fi.method = "診療月別" then do
    let df ← splitKeyCol df0 (.name "集計単位") (.name "診療月") (.name "診療年月")
    let df ← applyNew df (.name "診療月") (.name "診療年月") (monthYmV fi.nth)
    selectCols ((index_cols.map ColKey.name) ++
      [.name "診療月", .name "診療年月", .name "処方数量"]) df
  else pure df0

/-- Lines 195-210 of `_transform`: header normalisation, forward fill and
un-pivot, producing the long frame with the pivot-key / quantity columns. -/
def stackOf (df0 : Frame) : Option Frame := do
  let df1 ← insertUnit df0
  let df2 ← renameCols df1
  pure (unpivot (ffill2 df2))

/-- `_transform`. -/
def transform (df0 : Frame) (fi : FileInfo) (mc : String) : Option Frame := do
  let dfa ← stackOf df0
  let dfb ← methodStep dfa fi
  let dfc := assignCol dfb (.name "最小集計単位未満")
    ((getColVals dfb (.name "処方数量")).map flagV)
  let dfd := mapCol dfc (.name "処方数量") maskQty
  let cols0 := dfd.cols
  let dfe := assignConst dfd (.name "実施回") (.i fi.nth)
  let dff := assignConst dfe (.name "年度") (.i (fi.nth + 2013))
  let dfg := assignConst dff (.name "剤形") (.s fi.dosage)
  let dfh := assignConst dfg (.name "診療区分") (.s mc)
  let dfi ← selectCols ([.name "実施回", .name "年度", .name "剤形", .name "診療区分"] ++ cols0) dfh
  let dfj ← castCol dfi (.name "実施回") castInt8
  let dfk ← castCol dfj (.name "年度") castInt16
  let dfl ← castCol dfk (.name "後発品区分") castInt8
  let dfm ← castCol dfl (.name "薬価") castFloat
  castCol dfm (.name "処方数量") castFloat

/-- The long-frame header produced by the un-pivot. -/
def stackCols : List ColKey :=
  (index_cols.map ColKey.name) ++ [ColKey.name "集計単位", ColKey.name "処方数量"]

/-- The output header for a method with the given dimension columns. -/
def outCols (dims : List String) : List ColKey :=
  [.name "実施回", .name "年度", .name "剤形", .name "診療区分"] ++ index_cols.map ColKey.name
    ++ dims.map ColKey.name ++ [.name "処方数量", .name "最小集計単位未満"]

def sexDims : List String := ["性別", "年齢", "年齢区間"]

def prefDims : List String := ["都道府県コード", "都道府県名"]

def monthDims : List String := ["診療月", "診療年月"]

/-- Row-level form of the shared tail of the transform (threshold flag,
quantity mask, decoration, dtype casts) on one stacked row, given the eight
identification cells and the derived dimension cells. -/
def finRow (fi : FileInfo) (mc : String) (idv dims : List Val) (qty : Val) :
    Option (List Val) := do
  let gen ← castInt8 (idv.getD 7 .nan)
  let pr ← castFloat (idv.getD 6 .nan)
  let q2 ← castFloat (maskQty qty)
  pure ([Val.i (wrap8 fi.nth), Val.i (wrap16 (fi.nth + 2013)), Val.s fi.dosage, Val.s mc]
    ++ idv.take 6 ++ [pr, gen] ++ dims ++ [q2, flagV qty])

/-- Row-level form of the by-sex-age branch followed by the shared tail. -/
def sexRowF (fi : FileInfo) (mc : String) (r : List Val) : Option (List Val) :=
  match unpackPair (r.getD 8 .nan) with
  | some p =>
    match ageFloorStr p.2 with
    | some age =>
      finRow fi mc (r.take 8) [.s (stripSei p.1), .i age, .s p.2] (r.getD 9 .nan)
    | Option.none => Option.none
  | Option.none => Option.none

/-- Row-level form of the by-region branch followed by the shared tail. -/
def prefRowF (fi : FileInfo) (mc : String) (r : List Val) : Option (List Val) :=
  match unpackPair (r.getD 8 .nan) with
  | some p => finRow fi mc (r.take 8) [prefMask (.s p.1), .s p.2] (r.getD 9 .nan)
  | Option.none => Option.none

/-- Row-level form of the by-month branch followed by the shared tail. -/
def monthRowF (fi : FileInfo) (mc : String) (r : List Val) : Option (List Val) :=
  match unpackPair (r.getD 8 .nan) with
  | some p =>
    match monthYm fi.nth p.1 with
    | some ym => finRow fi mc (r.take 8) [.s p.1, .s ym] (r.getD 9 .nan)
    | Option.none => Option.none
  | Option.none => Option.none

/-- Right-to-left scan deleting whitespace runs that lead into an ASCII
opening parenthesis and replacing that parenthesis by the full-width one;
the Bool reports whether the processed suffix begins with such a run. -/
def subParenAux : List Char → List Char × Bool
  | [] => ([], false)
  | c :: rest =>
    let p := subParenAux rest
    if c = '(' then ('（' :: p.1, true)
    else if isPySpace c && p.2 then (p.1, true)
    else (c :: p.1, false)

/-- Line 169: normalise a sheet title, full-widthing its parentheses. -/
def normalizeSheetName (v : String) : String :=
  String.mk (subParenAux (v.data.map (fun c => if c = ')' then '）' else c))).1

/-- Python dict assignment: overwrite keeps the original key position,
a fresh key is appended. -/
def dictInsert (d : List (String × Frame)) (k : String) (v : Frame) : List (String × Frame) :=
  if d.any (fun p => p.1 == k) then d.map (fun p => if p.1 == k then (k, v) else p)
  else d ++ [(k, v)]

/-- Line 169: the care-setting resolved from a sheet title. -/
def resolveMC (nm : String) : String :=
  search medical_class_values (normalizeSheetName nm) ""

/-- Lines 164-170: key every sheet by the care-setting resolved from its
normalised title; later sheets overwrite earlier ones. -/
def buildData (sheets : List (String × Frame)) : List (String × Frame) :=
  sheets.foldl (fun d p => dictInsert d (resolveMC p.1) p.2) []

/-- Dictionary lookup in the per-sheet association list. -/
def lookupMC : List (String × Frame) → String → Option Frame
  | [], _ => Option.none
  | p :: ps, k => if p.1 = k then some p.2 else lookupMC ps k

/-- The frame of the last sheet whose title resolves to the given
care-setting, if any. -/
def lastResolve : List (String × Frame) → String → Option Frame
  | [], _ => Option.none
  | s :: rest, k =>
    (lastResolve rest k).or (if resolveMC s.1 = k then some s.2 else Option.none)

/-- Python `x in cond` for the care-setting condition: substring test when
the condition is a string, membership when it is a list. -/
def pyInStr (mc : String) (cond : StrFilter) : Bool :=
  match cond with
  | .scalar v => containsStr v mc
  | .many l => l.contains mc
  | .none => false

/-- Keep the rows whose cell in the given column is not the total marker. -/
def dropTotal (fr : Frame) (c : ColKey) : Option Frame :=
  match idxOf? c fr.cols with
  | Option.none => Option.none
  | some i => some ⟨fr.cols, fr.rows.filter (fun r => !(r.getD i .nan == .s "総計"))⟩

/-- Lines 181-187: the default total-row exclusion, keyed per method. -/
def dropTotalFor (fi : FileInfo) (fr : Frame) : Option Frame :=
  if fi.method = "性年齢別" then dropTotal fr (.name "性別")
  else if fi.method = "都道府県別" then dropTotal fr (.name "都道府県名")
  else if fi.method = "診療月別" then dropTotal fr (.name "診療月")
  else some fr

/-- Reindex a row onto a wider column list, filling blanks. -/
def reindexRow (src cs : List ColKey) (r : List Val) : List Val :=
  cs.map (fun c =>
    match idxOf? c src with
    | some i => r.getD i .nan
    | Option.none => .nan)

/-- pd.concat of two frames: appending when the columns agree, outer union
otherwise; an all-empty left operand disappears. -/
def concatFrames (a b : Frame) : Frame :=
  if a.cols.isEmpty && a.rows.isEmpty then b
  else if a.cols == b.cols then ⟨a.cols, a.rows ++ b.rows⟩
  else
    let cs := a.cols ++ b.cols.filter (fun c => !(a.cols.contains c))
    ⟨cs, a.rows.map (reindexRow a.cols cs) ++ b.rows.map (reindexRow b.cols cs)⟩

/-- Lines 172-189: per-sheet transform, total-row policy and concatenation. -/
def readLoop (fi : FileInfo) (cond : StrFilter) (include_total : Bool) :
    List (String × Frame) → Frame → Option Frame
  | [], acc => some acc
  | (mc, df) :: rest, acc =>
    if cond.truthy && !(pyInStr mc cond) then readLoop fi cond include_total rest acc
    else do
      let t0 ← transform df fi mc
      let t1 ← if include_total then some t0 else dropTotalFor fi t0
      readLoop fi cond include_total rest (concatFrames acc t1)

/-- `_read_file` given the fetched workbook sheets. -/
def read_file (fi : FileInfo) (sheets : List (String × Frame)) (cond : StrFilter)
    (include_total : Bool) : Option Frame :=
  readLoop fi cond include_total (buildData sheets) ⟨[], []⟩

/-- Outcome of `_load`: a raised exception, the logged-warning `None`
return, or a concatenated table. -/
inductive LoadResult where
  | raised
  | noData
  | table (fr : Frame)
deriving DecidableEq, Repr

/-- `_load`, with the fetched workbook contents supplied as an environment
mapping each catalog record to its sheets. -/
def load (catalog : List FileInfo) (env : FileInfo → List (String × Frame)) (method : String)
    (nth year : IntFilter) (dosage medical_class : StrFilter) (include_total : Bool) :
    LoadResult :=
  if method ∉ method_values then .raised
  else
    let files := filter_files catalog nth year dosage medical_class (.scalar method)
    if files.isEmpty then .noData
    else
      match omap (fun fi => read_file fi (env fi) medical_class include_total) files with
      | Option.none => .raised
      | some dfs =>
        match dfs with
        | [] => .raised
        | d :: rest => .table (rest.foldl concatFrames d)

/-- An argument that is either omitted or truthy, i.e. not one of the falsy
degenerate values `0` / `[]` (those are claim C9's concern). -/
def IntFilter.okArg : IntFilter → Bool
  | .none => true
  | .scalar n => n != 0
  | .many l => !l.isEmpty

/-- An argument that is either omitted or truthy. -/
def StrFilter.okArg : StrFilter → Bool
  | .none => true
  | .scalar v => v != ""
  | .many l => !l.isEmpty

/-- Spec-side predicate for the cycle/year narrowing, following the spec:
year is converted via `year - 2013` and ignored when cycle is given. -/
def specPassCycleYear (nth year : IntFilter) (f : FileInfo) : Bool :=
  match nth with
  | .scalar n => f.nth == n
  | .many l => l.contains f.nth
  | .none =>
    match year with
    | .scalar y => f.nth == y - 2013
    | .many l => l.any (fun y => f.nth == y - 2013)
    | .none => true

/-- Spec-side predicate for a plain string filter; omitted passes all. -/
def specPassStr (flt : StrFilter) (v : String) : Bool :=
  match flt with
  | .scalar w => v == w
  | .many l => l.contains v
  | .none => true

/-- Spec-side predicate for the care-setting filter: the descriptor matches
the value, or its care-setting is the unspecified sentinel. -/
def specPassMedical (flt : StrFilter) (f : FileInfo) : Bool :=
  match flt with
  | .scalar w => f.medical_class == w || f.medical_class == medical_class_default_value
  | .many l => l.contains f.medical_class || f.medical_class == medical_class_default_value
  | .none => true

/-- Spec-side conjunction of all supplied predicates. -/
def specPasses (nth year : IntFilter) (dosage medical_class method : StrFilter)
    (f : FileInfo) : Bool :=
  specPassCycleYear nth year f && specPassStr dosage f.dosage &&
    specPassMedical medical_class f && specPassStr method f.method

/-- The cell of a named output column in one row of a frame. -/
def colVal (fr : Frame) (c : String) (row : List Val) : Option Val :=
  (idxOf? (ColKey.name c) fr.cols).map (fun i => row.getD i .nan)

/-- A two-level header key of a by-sex-age sheet carries the total age band
exactly on the total sex column. -/
def sexKeyOK : ColKey → Bool
  | .pair a b => (b == "総計") == (stripSei a == "総計")
  | .name _ => true

/-- Source-format assumption for a by-sex-age sheet. -/
def WFsexF (df : Frame) : Prop :=
  ∀ c ∈ df.cols, sexKeyOK c = true

instance (df : Frame) : Decidable (WFsexF df) := by
  unfold WFsexF
  infer_instance

/-- A two-level header key of a by-region sheet carries the total (or "00")
region code exactly on the total region-name column. -/
def prefKeyOK : ColKey → Bool
  | .pair a b => (a == "総計" || a == "00") == (b == "総計")
  | .name _ => true

/-- Source-format assumption for a by-region sheet. -/
def WFprefF (df : Frame) : Prop :=
  ∀ c ∈ df.cols, prefKeyOK c = true

instance (df : Frame) : Decidable (WFprefF df) := by
  unfold WFprefF
  infer_instance

/-- A cell as produced by reading a sheet with dtype=str: blank or string. -/
def isStrCell : Val → Bool
  | Val.nan => true
  | Val.s _ => true
  | _ => false

/-- All cells of a grid read with dtype=str are blank or strings. -/
def StrCells (df : Frame) : Prop :=
  ∀ r ∈ df.rows, ∀ v ∈ r, isStrCell v = true

instance (df : Frame) : Decidable (StrCells df) := by
  unfold StrCells
  infer_instance

/-- The documented dimension columns of each aggregation method. -/
def specDims : String → List String
  | "性年齢別" => ["性別", "年齢", "年齢区間"]
  | "都道府県別" => ["都道府県コード", "都道府県名"]
  | "診療月別" => ["診療月", "診療年月"]
  | _ => []

/-- The documented output schema: identification prefix first, then the
method dimensions, then quantity and the below-threshold flag. -/
def specSchema (m : String) : List String :=
  ["実施回", "年度", "剤形", "診療区分"] ++ index_cols ++ specDims m ++
    ["処方数量", "最小集計単位未満"]

/-! Concrete fixtures used by the witnesses. -/

/-- A small concrete catalog. -/
def wCatalog : List FileInfo :=
  [⟨1, "内服", "入院", "性年齢別", "u1"⟩,
   ⟨1, "内服", "", "性年齢別", "u2"⟩,
   ⟨2, "外用", "入院", "都道府県別", "u3"⟩,
   ⟨10, "内服", "外来（院内）", "診療月別", "u4"⟩]

/-- A single-record catalog. -/
def cFi : FileInfo := ⟨1, "内服", "入院", "性年齢別", "u"⟩

/-- A workbook environment with no sheets. -/
def wEnv : FileInfo → List (String × Frame) := fun _ => []

/-- Columns of a small concrete input grid (two-row header pairs), with a
unit column present. -/
def wCols : List ColKey :=
  [.pair "分類" "a", .pair "分類名" "a", .pair "コード" "a", .pair "名" "a",
   .pair "単位" "a", .pair "基準" "a", .pair "価" "a", .pair "区分" "a",
   .pair "計" "計", .pair "男性" "0～4歳"]

def wRow : List Val :=
  [.s "87", .s "解熱", .s "100", .s "薬A", .s "錠", .s "611", .s "10", .s "1", .s "5", .s "3"]

def wGridSex : Frame := ⟨wCols, [wRow]⟩

def wFiSex : FileInfo := ⟨1, "外用", "入院", "性年齢別", "u"⟩

/-- The fixed output header shared by every method up to the dimensions. -/
def outPrefix : List ColKey :=
  [.name "実施回", .name "年度", .name "剤形", .name "診療区分"] ++ index_cols.map ColKey.name

def wOutIdCells : List Val :=
  [.i 1, .i 2014, .s "外用", .s "入院", .s "87", .s "解熱", .s "100", .s "薬A",
   .s "錠", .s "611", .f 10 0, .i 1]

/-- The full transformed table of the witness grid. -/
def wOutSex : Frame :=
  ⟨outPrefix ++ [.name "性別", .name "年齢", .name "年齢区間",
     .name "処方数量", .name "最小集計単位未満"],
   [wOutIdCells ++ [.s "総計", .i (-1), .s "総計", .f 5 0, .i 0],
    wOutIdCells ++ [.s "男", .i 0, .s "0～4歳", .f 3 0, .i 0]]⟩

/-- The default (totals-dropped) table of the witness grid. -/
def wOutSexF : Frame :=
  ⟨outPrefix ++ [.name "性別", .name "年齢", .name "年齢区間",
     .name "処方数量", .name "最小集計単位未満"],
   [wOutIdCells ++ [.s "男", .i 0, .s "0～4歳", .f 3 0, .i 0]]⟩

/-- Columns of a by-month witness grid: a total column then an April
column. -/
def wColsM : List ColKey :=
  [.pair "分類" "a", .pair "分類名" "a", .pair "コード" "a", .pair "名" "a",
   .pair "単位" "a", .pair "基準" "a", .pair "価" "a", .pair "区分" "a",
   .pair "計" "計", .pair "4月" "4"]

def wGridMonth : Frame := ⟨wColsM, [wRow]⟩

def wFiMonth : FileInfo := ⟨10, "内服", "外来（院内）", "診療月別", "u"⟩

def wOutIdCellsM : List Val :=
  [.i 10, .i 2023, .s "内服", .s "外来（院内）", .s "87", .s "解熱", .s "100", .s "薬A",
   .s "錠", .s "611", .f 10 0, .i 1]

/-- The full transformed by-month table of the witness grid. -/
def wOutMonth : Frame :=
  ⟨outPrefix ++ [.name "診療月", .name "診療年月", .name "処方数量", .name "最小集計単位未満"],
   [wOutIdCellsM ++ [.s "総計", .s "総計", .f 5 0, .i 0],
    wOutIdCellsM ++ [.s "4月", .s "2023/04", .f 3 0, .i 0]]⟩

example :
    transform wGridSex wFiSex "入院" =
      some ⟨outPrefix ++ [.name "性別", .name "年齢", .name "年齢区間",
              .name "処方数量", .name "最小集計単位未満"],
            [wOutIdCells ++ [.s "総計", .i (-1), .s "総計", .f 5 0, .i 0],
             wOutIdCells ++ [.s "男", .i 0, .s "0～4歳", .f 3 0, .i 0]]⟩ := by decide

example : search method_values "01【内服】入院_性年齢別薬効分類別数量" "" = "性年齢別" := by decide

example :
    parse_to_fileinfo "01【外用】入院_性年齢別薬効分類別数量" "u" =
      some ⟨some "01", "外用", some "入院", "性年齢別", "u"⟩ := by decide

example :
    parse_to_fileinfo "【内服】_都道府県別薬効分類別数量" "u" =
      some ⟨Option.none, "内服", Option.none, "都道府県別", "u"⟩ := by decide

example : parse_to_fileinfo "misc" "u" = Option.none := by decide

example : FileInfo.str ⟨1, "外用", "入院", "性年齢別", "u"⟩ = "01【外用】入院_性年齢別薬効分類別数量" := by decide

/-! Stage lemmas for the catalog filter. -/

lemma stageNthYear_subset (nth year : IntFilter) (fs : List FileInfo) :
    stageNthYear nth year fs ⊆ fs := by
  intro f hf
  unfold stageNthYear at hf
  split at hf
  · cases nth with
    | none => exact hf
    | scalar n => exact (List.mem_filter.mp hf).1
    | many l => exact (List.mem_filter.mp hf).1
  · split at hf
    · cases year with
      | none => exact hf
      | scalar y => exact (List.mem_filter.mp hf).1
      | many l => exact (List.mem_filter.mp hf).1
    · exact hf

lemma stageDosage_subset (d : StrFilter) (fs : List FileInfo) : stageDosage d fs ⊆ fs := by
  intro f hf
  unfold stageDosage at hf
  split at hf
  · cases d with
    | none => exact hf
    | scalar v => exact (List.mem_filter.mp hf).1
    | many l => exact (List.mem_filter.mp hf).1
  · exact hf

lemma stageMedical_subset (d : StrFilter) (fs : List FileInfo) : stageMedical d fs ⊆ fs := by
  intro f hf
  unfold stageMedical at hf
  split at hf
  · cases d with
    | none => exact hf
    | scalar v => exact (List.mem_filter.mp hf).1
    | many l => exact (List.mem_filter.mp hf).1
  · exact hf

lemma stageMethod_subset (d : StrFilter) (fs : List FileInfo) : stageMethod d fs ⊆ fs := by
  intro f hf
  unfold stageMethod at hf
  split at hf
  · cases d with
    | none => exact hf
    | scalar v => exact (List.mem_filter.mp hf).1
    | many l => exact (List.mem_filter.mp hf).1
  · exact hf

lemma mem_stageNthYear_scalar {n : Int} (hn : n ≠ 0) (year : IntFilter)
    (fs : List FileInfo) (f : FileInfo) :
    f ∈ stageNthYear (.scalar n) year fs ↔ f ∈ fs ∧ f.nth = n := by
  simp [stageNthYear, IntFilter.truthy, hn]

lemma mem_stageMethod_scalar {v : String} (hv : v ≠ "") (fs : List FileInfo) (f : FileInfo) :
    f ∈ stageMethod (.scalar v) fs ↔ f ∈ fs ∧ f.method = v := by
  simp [stageMethod, StrFilter.truthy, hv]

lemma contains_map_sub (l : List Int) (x : Int) :
    ((l.map (fun y => y - 2013)).contains x) = l.any (fun y => x == y - 2013) := by
  induction l with
  | nil => rfl
  | cons y ys ih => simp only [List.map_cons, List.contains_cons, List.any_cons, ih]

lemma stageNthYear_eq_filter (nth year : IntFilter) (h1 : nth.okArg) (h2 : year.okArg)
    (fs : List FileInfo) :
    stageNthYear nth year fs = fs.filter (specPassCycleYear nth year) := by
  cases nth with
  | none =>
    cases year with
    | none =>
      show fs = _
      exact (List.filter_true fs).symm
    | scalar y =>
      simp only [IntFilter.okArg] at h2
      show (if (y != 0) = true then _ else _) = _
      rw [if_pos h2]
      exact List.filter_congr (fun f _ => rfl)
    | many l =>
      simp only [IntFilter.okArg] at h2
      show (if (!l.isEmpty) = true then _ else _) = _
      rw [if_pos h2]
      exact List.filter_congr (fun f _ => contains_map_sub l f.nth)
  | scalar n =>
    simp only [IntFilter.okArg] at h1
    show (if (n != 0) = true then _ else _) = _
    rw [if_pos h1]
    exact List.filter_congr (fun f _ => rfl)
  | many l =>
    simp only [IntFilter.okArg] at h1
    show (if (!l.isEmpty) = true then _ else _) = _
    rw [if_pos h1]
    exact List.filter_congr (fun f _ => rfl)

lemma stageDosage_eq_filter (d : StrFilter) (h : d.okArg) (fs : List FileInfo) :
    stageDosage d fs = fs.filter (fun f => specPassStr d f.dosage) := by
  cases d with
  | none =>
    show fs = _
    exact (List.filter_true fs).symm
  | scalar v =>
    simp only [StrFilter.okArg] at h
    show (if (v != "") = true then _ else _) = _
    rw [if_pos h]
    exact List.filter_congr (fun f _ => rfl)
  | many l =>
    simp only [StrFilter.okArg] at h
    show (if (!l.isEmpty) = true then _ else _) = _
    rw [if_pos h]
    exact List.filter_congr (fun f _ => rfl)

lemma stageMedical_eq_filter (d : StrFilter) (h : d.okArg) (fs : List FileInfo) :
    stageMedical d fs = fs.filter (fun f => specPassMedical d f) := by
  cases d with
  | none =>
    show fs = _
    exact (List.filter_true fs).symm
  | scalar v =>
    simp only [StrFilter.okArg] at h
    show (if (v != "") = true then _ else _) = _
    rw [if_pos h]
    exact List.filter_congr (fun f _ => rfl)
  | many l =>
    simp only [StrFilter.okArg] at h
    show (if (!l.isEmpty) = true then _ else _) = _
    rw [if_pos h]
    exact List.filter_congr (fun f _ => rfl)

lemma stageMethod_eq_filter (d : StrFilter) (h : d.okArg) (fs : List FileInfo) :
    stageMethod d fs = fs.filter (fun f => specPassStr d f.method) := by
  cases d with
  | none =>
    show fs = _
    exact (List.filter_true fs).symm
  | scalar v =>
    simp only [StrFilter.okArg] at h
    show (if (v != "") = true then _ else _) = _
    rw [if_pos h]
    exact List.filter_congr (fun f _ => rfl)
  | many l =>
    simp only [StrFilter.okArg] at h
    show (if (!l.isEmpty) = true then _ else _) = _
    rw [if_pos h]
    exact List.filter_congr (fun f _ => rfl)

/-- C6: for every descriptor list and every combination of supplied filter
values (each omitted, or a non-degenerate scalar, or a nonempty list), the
filtering operation returns exactly the descriptors satisfying the
conjunction of the supplied predicates, with year converted via
`year - 2013` and ignored when cycle_number is supplied, the unspecified
care-setting sentinel matching any care-setting filter, and omitted filters
passing every descriptor. -/
theorem C6_filter_files_refines_spec (files : List FileInfo) (nth year : IntFilter)
    (dosage medical_class method : StrFilter) (h1 : nth.okArg) (h2 : year.okArg)
    (h3 : dosage.okArg) (h4 : medical_class.okArg) (h5 : method.okArg) :
    filter_files files nth year dosage medical_class method =
      files.filter (specPasses nth year dosage medical_class method) := by
  unfold filter_files
  rw [stageNthYear_eq_filter _ _ h1 h2, stageDosage_eq_filter _ h3,
      stageMedical_eq_filter _ h4, stageMethod_eq_filter _ h5]
  rw [List.filter_filter, List.filter_filter, List.filter_filter]
  exact List.filter_congr (fun f _ => by
    simp [specPasses, Bool.and_assoc, Bool.and_comm, Bool.and_left_comm])

/-- Witness for C6 at a concrete catalog and filter combination; the
supplied year is ignored because a cycle is supplied, and the descriptor
with the unspecified care-setting passes the care-setting filter. -/
theorem C6_filter_files_refines_spec_witness :
    filter_files wCatalog (.scalar 1) (.scalar 2015) (.many ["内服"]) (.scalar "入院") .none =
      wCatalog.filter (specPasses (.scalar 1) (.scalar 2015) (.many ["内服"]) (.scalar "入院") .none)
  ∧ wCatalog.filter (specPasses (.scalar 1) (.scalar 2015) (.many ["内服"]) (.scalar "入院") .none) =
      [⟨1, "内服", "入院", "性年齢別", "u1"⟩, ⟨1, "内服", "", "性年齢別", "u2"⟩] :=
  ⟨C6_filter_files_refines_spec wCatalog (.scalar 1) (.scalar 2015) (.many ["内服"])
      (.scalar "入院") .none (by decide) (by decide) (by decide) (by decide) (by decide),
   by decide⟩

/-- C7 counterexample: filtering with the scalar 0 differs from filtering
with the singleton [0], because 0 is falsy and disables the narrowing while
[0] is truthy and filters. -/
theorem C7_scalar_vs_singleton_cex :
    filter_files [cFi] (.scalar 0) .none .none .none .none ≠
      filter_files [cFi] (.many [0]) .none .none .none .none := by decide

lemma stageNthYear_scalar_singleton {n : Int} (hn : n ≠ 0) (yearF : IntFilter)
    (fs : List FileInfo) :
    stageNthYear (.scalar n) yearF fs = stageNthYear (.many [n]) yearF fs := by
  show (if (n != 0) = true then _ else _) = (if (!([n].isEmpty)) = true then _ else _)
  rw [if_pos (by simpa using hn), if_pos (by simp)]
  exact List.filter_congr (fun f _ => by simp [Bool.beq_eq_decide_eq])

lemma stageNthYear_year_scalar_singleton (nthF : IntFilter) {y : Int} (hy : y ≠ 0)
    (fs : List FileInfo) :
    stageNthYear nthF (.scalar y) fs = stageNthYear nthF (.many [y]) fs := by
  unfold stageNthYear
  split
  · rfl
  · show (if (y != 0) = true then _ else _) = (if (!([y].isEmpty)) = true then _ else _)
    rw [if_pos (by simpa using hy), if_pos (by simp)]
    exact List.filter_congr (fun f _ => by simp [Bool.beq_eq_decide_eq])

lemma stageDosage_scalar_singleton {v : String} (hv : v ≠ "") (fs : List FileInfo) :
    stageDosage (.scalar v) fs = stageDosage (.many [v]) fs := by
  show (if (v != "") = true then _ else _) = (if (!([v].isEmpty)) = true then _ else _)
  rw [if_pos (by simpa using hv), if_pos (by simp)]
  exact List.filter_congr (fun f _ => by simp [Bool.beq_eq_decide_eq])

lemma stageMedical_scalar_singleton {v : String} (hv : v ≠ "") (fs : List FileInfo) :
    stageMedical (.scalar v) fs = stageMedical (.many [v]) fs := by
  show (if (v != "") = true then _ else _) = (if (!([v].isEmpty)) = true then _ else _)
  rw [if_pos (by simpa using hv), if_pos (by simp)]
  exact List.filter_congr (fun f _ => by simp [Bool.beq_eq_decide_eq])

lemma stageMethod_scalar_singleton {v : String} (hv : v ≠ "") (fs : List FileInfo) :
    stageMethod (.scalar v) fs = stageMethod (.many [v]) fs := by
  show (if (v != "") = true then _ else _) = (if (!([v].isEmpty)) = true then _ else _)
  rw [if_pos (by simpa using hv), if_pos (by simp)]
  exact List.filter_congr (fun f _ => by simp [Bool.beq_eq_decide_eq])

/-- C7 (amended): for every filter parameter, filtering with a scalar v and
with the singleton [v] produce identical result lists, provided v is not
the falsy value of its type (0 for cycle/year, the empty string otherwise);
for the falsy scalars the two differ, see the counterexample. -/
theorem C7_scalar_eq_singleton (files : List FileInfo) (nthF yearF : IntFilter)
    (dF mF mtF : StrFilter) (n y : Int) (d m mth : String) (hn : n ≠ 0) (hy : y ≠ 0)
    (hd : d ≠ "") (hm : m ≠ "") (hmth : mth ≠ "") :
    (filter_files files (.scalar n) yearF dF mF mtF =
       filter_files files (.many [n]) yearF dF mF mtF)
  ∧ (filter_files files nthF (.scalar y) dF mF mtF =
       filter_files files nthF (.many [y]) dF mF mtF)
  ∧ (filter_files files nthF yearF (.scalar d) mF mtF =
       filter_files files nthF yearF (.many [d]) mF mtF)
  ∧ (filter_files files nthF yearF dF (.scalar m) mtF =
       filter_files files nthF yearF dF (.many [m]) mtF)
  ∧ (filter_files files nthF yearF dF mF (.scalar mth) =
       filter_files files nthF yearF dF mF (.many [mth])) := by
  refine ⟨?_, ?_, ?_, ?_, ?_⟩ <;> unfold filter_files
  · rw [stageNthYear_scalar_singleton hn]
  · rw [stageNthYear_year_scalar_singleton nthF hy]
  · rw [stageDosage_scalar_singleton hd]
  · rw [stageMedical_scalar_singleton hm]
  · rw [stageMethod_scalar_singleton hmth]

/-- Witness for C7 at a concrete catalog and concrete non-falsy scalars. -/
theorem C7_scalar_eq_singleton_witness :
    (filter_files wCatalog (.scalar 1) .none .none .none .none =
       filter_files wCatalog (.many [1]) .none .none .none .none)
  ∧ (filter_files wCatalog .none (.scalar 2014) .none .none .none =
       filter_files wCatalog .none (.many [2014]) .none .none .none)
  ∧ (filter_files wCatalog .none .none (.scalar "内服") .none .none =
       filter_files wCatalog .none .none (.many ["内服"]) .none .none)
  ∧ (filter_files wCatalog .none .none .none (.scalar "入院") .none =
       filter_files wCatalog .none .none .none (.many ["入院"]) .none)
  ∧ (filter_files wCatalog .none .none .none .none (.scalar "性年齢別") =
       filter_files wCatalog .none .none .none .none (.many ["性年齢別"])) :=
  C7_scalar_eq_singleton wCatalog .none .none .none .none .none 1 2014 "内服" "入院" "性年齢別"
    (by decide) (by decide) (by decide) (by decide) (by decide)

/-- C9: supplying an empty collection for any filter parameter, or the
scalar 0 for cycle_number or year, is treated exactly like omitting the
filter, so every descriptor passes. -/
theorem C9_falsy_filter_is_omitted (files : List FileInfo) (nthF yearF : IntFilter)
    (dF mF mtF : StrFilter) :
    (filter_files files (.many []) yearF dF mF mtF = filter_files files .none yearF dF mF mtF)
  ∧ (filter_files files (.scalar 0) yearF dF mF mtF = filter_files files .none yearF dF mF mtF)
  ∧ (filter_files files nthF (.many []) dF mF mtF = filter_files files nthF .none dF mF mtF)
  ∧ (filter_files files nthF (.scalar 0) dF mF mtF = filter_files files nthF .none dF mF mtF)
  ∧ (filter_files files nthF yearF (.many []) mF mtF = filter_files files nthF yearF .none mF mtF)
  ∧ (filter_files files nthF yearF dF (.many []) mtF = filter_files files nthF yearF dF .none mtF)
  ∧ (filter_files files nthF yearF dF mF (.many []) = filter_files files nthF yearF dF mF .none) :=
  ⟨rfl, rfl, rfl, rfl, rfl, rfl, rfl⟩

/-- C3 (code bug): evaluating the naming convention and the local-filename
parser at a saved file's stem. The name is produced as documented and the
parser accepts it, but the cycle comes back as the capture string "01"
rather than the integer 1, and an empty care-setting comes back as a
missing capture rather than the empty string, so the parsed record does not
reproduce the FileInfo field values. -/
theorem C3_roundtrip_parse_evaluation :
    FileInfo.str ⟨1, "外用", "入院", "性年齢別", "u"⟩ = "01【外用】入院_性年齢別薬効分類別数量"
  ∧ parse_to_fileinfo "01【外用】入院_性年齢別薬効分類別数量" "p" =
      some ⟨some "01", "外用", some "入院", "性年齢別", "p"⟩
  ∧ parse_to_fileinfo (FileInfo.str ⟨1, "内服", "", "性年齢別", "u"⟩) "p" =
      some ⟨some "01", "内服", Option.none, "性年齢別", "p"⟩ := by decide

/-- C4: whenever the filtered descriptor list is empty — in particular for
the by-month method at a nonzero cycle below 10 when no such descriptors
exist in the catalog — load returns the no-data sentinel, which is distinct
from any table (in particular an empty one) and from an exception. -/
theorem C4_empty_filter_noData
    (catalog : List FileInfo) (env : FileInfo → List (String × Frame)) (method : String)
    (nthF yearF : IntFilter) (dF mF : StrFilter) (it : Bool) (n : Int)
    (hmeth : method ∈ method_values)
    (hempty : filter_files catalog nthF yearF dF mF (.scalar method) = [])
    (hmonth : ∀ f ∈ catalog, f.method = "診療月別" → 10 ≤ f.nth)
    (hn0 : n ≠ 0) (hn10 : n < 10) :
    load catalog env method nthF yearF dF mF it = .noData
  ∧ load catalog env "診療月別" (.scalar n) yearF dF mF it = .noData
  ∧ ∀ fr : Frame, LoadResult.noData ≠ .table fr ∧ LoadResult.noData ≠ .raised := by
  refine ⟨?_, ?_, fun fr => ⟨by simp, by simp⟩⟩
  · unfold load
    rw [if_neg (not_not_intro hmeth)]
    simp [hempty]
  · have hfe : filter_files catalog (.scalar n) yearF dF mF (.scalar "診療月別") = [] := by
      rw [List.eq_nil_iff_forall_not_mem]
      intro f hf
      unfold filter_files at hf
      obtain ⟨hf2, hmm⟩ := (mem_stageMethod_scalar (by decide) _ f).1 hf
      have hf3 := stageMedical_subset mF _ hf2
      have hf4 := stageDosage_subset dF _ hf3
      obtain ⟨hf5, hnn⟩ := (mem_stageNthYear_scalar hn0 yearF _ f).1 hf4
      have h10 := hmonth f hf5 hmm
      omega
    unfold load
    rw [if_neg (not_not_intro (by decide : "診療月別" ∈ method_values))]
    simp [hfe]

/-- Witness for C4 at a concrete catalog whose only by-month descriptor is
for cycle 10, with filters matching nothing. -/
theorem C4_empty_filter_noData_witness :
    load wCatalog wEnv "性年齢別" (.scalar 99) .none .none .none false = .noData
  ∧ load wCatalog wEnv "診療月別" (.scalar 5) .none .none .none false = .noData
  ∧ ∀ fr : Frame, LoadResult.noData ≠ .table fr ∧ LoadResult.noData ≠ .raised :=
  C4_empty_filter_noData wCatalog wEnv "性年齢別" (.scalar 99) .none .none .none false 5
    (by decide) (by decide) (by decide) (by decide) (by decide)

/-! Association-list lemmas for the per-sheet dictionary. -/

lemma dictInsert_keys (d : List (String × Frame)) (k : String) (v : Frame) :
    (dictInsert d k v).map Prod.fst =
      if d.any (fun p => p.1 == k) then d.map Prod.fst else d.map Prod.fst ++ [k] := by
  unfold dictInsert
  split
  · rw [List.map_map]
    refine List.map_congr_left (fun p _ => ?_)
    by_cases hp : p.1 = k
    · simp [hp]
    · simp [hp]
  · simp

lemma dictInsert_nodup (d : List (String × Frame)) (k : String) (v : Frame)
    (h : (d.map Prod.fst).Nodup) : ((dictInsert d k v).map Prod.fst).Nodup := by
  rw [dictInsert_keys]
  split
  · exact h
  · rename_i hany
    have hk : k ∉ d.map Prod.fst := by
      intro hkm
      obtain ⟨p, hp, hpk⟩ := List.mem_map.mp hkm
      exact hany (List.any_eq_true.mpr ⟨p, hp, by simp [hpk]⟩)
    simp [List.nodup_append, h, hk]

lemma lookup_overwrite (d : List (String × Frame)) (k : String) (v : Frame) (k2 : String) :
    lookupMC (d.map (fun p => if p.1 == k then (k, v) else p)) k2 =
      if k2 = k ∧ (d.any (fun p => p.1 == k)) = true then some v else lookupMC d k2 := by
  induction d with
  | nil => simp [lookupMC]
  | cons p ps ih =>
    simp only [List.map_cons, List.any_cons, lookupMC]
    by_cases hp : p.1 = k
    · rw [if_pos (show (p.1 == k) = true by simp [hp])]
      by_cases hk : k2 = k
      · simp [lookupMC, hk.symm, hp]
      · have h2 : ¬(p.1 = k2) := fun h => hk (h.symm.trans hp)
        have hkk : ¬((k : String) = k2) := fun h => hk h.symm
        rw [if_neg hkk, ih, if_neg h2, if_neg (fun h => hk h.1),
            if_neg (fun h => hk h.1)]
    · rw [if_neg (show ¬(p.1 == k) = true by simp [hp])]
      by_cases hq : p.1 = k2
      · have hne : ¬(k2 = k) := fun h => hp (hq.trans h)
        simp [lookupMC, hq, hne]
      · rw [if_neg hq, ih, if_neg hq]
        have hb : ((p.1 == k) || ps.any (fun p => p.1 == k)) = ps.any (fun p => p.1 == k) := by
          simp [hp]
        rw [hb]

lemma lookup_append_single (d : List (String × Frame)) (k : String) (v : Frame) (k2 : String)
    (hany : d.any (fun p => p.1 == k) = false) :
    lookupMC (d ++ [(k, v)]) k2 = if k2 = k then some v else lookupMC d k2 := by
  induction d with
  | nil =>
    by_cases hk : k2 = k
    · simp [lookupMC, hk]
    · have : ¬((k : String) = k2) := fun h => hk h.symm
      simp [lookupMC, hk, this]
  | cons p ps ih =>
    simp only [List.any_cons, Bool.or_eq_false_iff] at hany
    have hp : ¬(p.1 = k) := by
      intro h
      have : (p.1 == k) = true := by simp [h]
      simp [this] at hany
    simp only [List.cons_append, lookupMC, List.append_eq]
    by_cases hq : p.1 = k2
    · have hne : ¬(k2 = k) := fun h => hp (hq.trans h)
      simp [hq, hne]
    · rw [if_neg hq, ih hany.2]
      by_cases hk : k2 = k
      · rw [if_pos hk, if_pos hk]
      · rw [if_neg hk, if_neg hk, if_neg hq]

lemma dictInsert_lookup (d : List (String × Frame)) (k : String) (v : Frame) (k2 : String) :
    lookupMC (dictInsert d k v) k2 = if k2 = k then some v else lookupMC d k2 := by
  unfold dictInsert
  split
  · rename_i hany
    rw [lookup_overwrite]
    by_cases hk : k2 = k
    · simp [hk, hany]
    · simp [hk]
  · rename_i hany
    exact lookup_append_single d k v k2 (Bool.eq_false_iff.mpr hany)

lemma buildData_foldl_lookup (sheets : List (String × Frame)) (k : String) :
    ∀ acc : List (String × Frame),
      lookupMC (sheets.foldl (fun d p => dictInsert d (resolveMC p.1) p.2) acc) k =
        (lastResolve sheets k).or (lookupMC acc k) := by
  induction sheets with
  | nil => intro acc; simp [lastResolve]
  | cons s rest ih =>
    intro acc
    rw [List.foldl_cons, ih, dictInsert_lookup]
    show _ = ((lastResolve rest k).or _).or _
    cases hr : lastResolve rest k with
    | some fr => simp
    | none =>
      by_cases hk : resolveMC s.1 = k
      · simp [hk]
      · have : ¬(k = resolveMC s.1) := fun h => hk h.symm
        simp [hk, this]

/-- C10: within one workbook the sheets are keyed by the care-setting
resolved from the normalised sheet title, so at most one sheet per
care-setting survives (the keys are distinct), and the frame stored for a
care-setting is that of the last sheet resolving to it — earlier sheets
with the same resolved care-setting are silently dropped. -/
theorem C10_sheet_dict_last_wins (sheets : List (String × Frame)) :
    ((buildData sheets).map Prod.fst).Nodup
  ∧ ∀ k : String, lookupMC (buildData sheets) k = lastResolve sheets k := by
  constructor
  · have hstep : ∀ (l : List (String × Frame)) (acc : List (String × Frame)),
        (acc.map Prod.fst).Nodup →
        ((l.foldl (fun d p => dictInsert d (resolveMC p.1) p.2) acc).map Prod.fst).Nodup := by
      intro l
      induction l with
      | nil => exact fun acc h => h
      | cons s rest ih => exact fun acc h => ih _ (dictInsert_nodup _ _ _ h)
    exact hstep sheets [] (by simp)
  · intro k
    rw [buildData, buildData_foldl_lookup]
    simp [lookupMC]

/-! Utility lemmas for the row-wise effectful map. -/

lemma omap_congr {α β : Type _} {f g : α → Option β} :
    ∀ {l : List α}, (∀ a ∈ l, f a = g a) → omap f l = omap g l
  | [], _ => rfl
  | a :: l, h => by
    rw [List.forall_mem_cons] at h
    simp only [omap, h.1, omap_congr h.2]

lemma omap_map {α β γ : Type _} (f : β → Option γ) (g : α → β) (l : List α) :
    omap f (l.map g) = omap (fun a => f (g a)) l := by
  induction l with
  | nil => rfl
  | cons a t ih => simp only [List.map_cons, omap, ih]

lemma omap_bind_omap {α β γ : Type _} (f : α → Option β) (g : β → Option γ) (l : List α) :
    (omap f l).bind (fun ys => omap g ys) = omap (fun a => (f a).bind g) l := by
  induction l with
  | nil => simp [omap]
  | cons a t ih =>
    simp only [omap]
    cases hf : f a with
    | none => simp
    | some b =>
      cases ht : omap f t with
      | none =>
        rw [ht] at ih
        cases hg : g b <;> simp [omap, hg, ← ih]
      | some bs =>
        rw [ht] at ih
        cases hg : g b <;> simp [omap, hg, ← ih]

lemma map_omap {α β γ : Type _} (g : β → γ) (f : α → Option β) (l : List α) :
    (omap f l).map (List.map g) = omap (fun a => (f a).map g) l := by
  induction l with
  | nil => rfl
  | cons a t ih =>
    simp only [omap]
    cases hf : f a with
    | none => simp
    | some b =>
      cases ht : omap f t with
      | none => rw [ht] at ih; simp [omap, ← ih]
      | some bs => rw [ht] at ih; simp [omap, ← ih]

lemma omap_zipWith {α β γ : Type _} (f : α → Option β) (h : α → β → γ) (l : List α) :
    (omap f l).map (fun ps => List.zipWith h l ps) = omap (fun a => (f a).map (h a)) l := by
  induction l with
  | nil => rfl
  | cons a t ih =>
    simp only [omap]
    cases hf : f a with
    | none => simp
    | some b =>
      cases ht : omap f t with
      | none => rw [ht] at ih; simp [List.zipWith_cons_cons, ← ih]
      | some bs => rw [ht] at ih; simp [List.zipWith_cons_cons, ← ih]

lemma zipWith_zipWith_same {α β γ δ : Type _} (f : γ → β → δ) (g : α → β → γ) :
    ∀ (l : List α) (l2 : List β),
      List.zipWith f (List.zipWith g l l2) l2 = List.zipWith (fun a b => f (g a b) b) l l2
  | [], _ => by simp
  | _ :: _, [] => by simp
  | a :: t, b :: t2 => by
    simp only [List.zipWith_cons_cons, zipWith_zipWith_same f g t t2]

lemma mapBind {α β γ : Type _} (x : Option α) (f : α → β) (g : β → Option γ) :
    (x.map f).bind g = x.bind (fun a => g (f a)) := by
  cases x <;> rfl

lemma map_mk_zipWith {β : Type _} (cs : List ColKey) (F : List Val → Option β)
    (h : List Val → β → List Val) (rows : List (List Val)) :
    (omap F rows).map (fun ps => (⟨cs, List.zipWith h rows ps⟩ : Frame)) =
      (omap (fun r => (F r).map (h r)) rows).map (fun rs => (⟨cs, rs⟩ : Frame)) := by
  rw [show (fun ps => (⟨cs, List.zipWith h rows ps⟩ : Frame)) =
        (fun rs => (⟨cs, rs⟩ : Frame)) ∘ (fun ps => List.zipWith h rows ps) from rfl,
      ← Option.map_map, omap_zipWith]

/-! Shape lemmas for the frame operations at known column positions. -/

lemma getColVals_at {C : List ColKey} {c : ColKey} {i : Nat} (h : idxOf? c C = some i)
    (rows : List (List Val)) :
    getColVals ⟨C, rows⟩ c = rows.map (fun r => r.getD i .nan) := by
  simp [getColVals, h]

lemma mapCol_at {C : List ColKey} {c : ColKey} {i : Nat} (h : idxOf? c C = some i)
    (rows : List (List Val)) (f : Val → Val) :
    mapCol ⟨C, rows⟩ c f = ⟨C, rows.map (fun r => r.set i (f (r.getD i .nan)))⟩ := by
  simp [mapCol, h]

lemma assignCol_new {C : List ColKey} {c : ColKey} (h : idxOf? c C = Option.none)
    (rows : List (List Val)) (vs : List Val) :
    assignCol ⟨C, rows⟩ c vs = ⟨C ++ [c], List.zipWith (fun r v => r ++ [v]) rows vs⟩ := by
  simp [assignCol, h]

lemma assignCol_at {C : List ColKey} {c : ColKey} {i : Nat} (h : idxOf? c C = some i)
    (rows : List (List Val)) (vs : List Val) :
    assignCol ⟨C, rows⟩ c vs = ⟨C, List.zipWith (fun r v => r.set i v) rows vs⟩ := by
  simp [assignCol, h]

lemma castCol_at {C : List ColKey} {c : ColKey} {i : Nat} (h : idxOf? c C = some i)
    (rows : List (List Val)) (f : Val → Option Val) :
    castCol ⟨C, rows⟩ c f =
      (omap (fun r => (f (r.getD i .nan)).map (fun v => r.set i v)) rows).map
        (fun rs => (⟨C, rs⟩ : Frame)) := by
  simp [castCol, h]

lemma selectCols_at {C cs : List ColKey} {idxs : List Nat}
    (h : omap (fun c => idxOf? c C) cs = some idxs) (rows : List (List Val)) :
    selectCols cs ⟨C, rows⟩ =
      some ⟨cs, rows.map (fun r => idxs.map (fun i => r.getD i .nan))⟩ := by
  simp [selectCols, h]

lemma splitKeyCol_nf {C : List ColKey} {c c1 c2 : ColKey} {i : Nat}
    (h : idxOf? c C = some i) (h1 : idxOf? c1 C = Option.none)
    (h2 : idxOf? c2 (C ++ [c1]) = Option.none) (rows : List (List Val)) :
    splitKeyCol ⟨C, rows⟩ c c1 c2 =
      (omap (fun r => (unpackPair (r.getD i .nan)).map
          (fun p => r ++ [Val.s p.1, Val.s p.2])) rows).map
        (fun rs => (⟨C ++ [c1, c2], rs⟩ : Frame)) := by
  unfold splitKeyCol
  rw [getColVals_at h, omap_map]
  have hassign : ∀ ps : List (String × String),
      assignCol (assignCol ⟨C, rows⟩ c1 (ps.map (fun p => Val.s p.1))) c2
          (ps.map (fun p => Val.s p.2)) =
        (⟨C ++ [c1, c2], List.zipWith (fun r p => r ++ [Val.s p.1, Val.s p.2]) rows ps⟩ :
          Frame) := by
    intro ps
    rw [assignCol_new h1, assignCol_new h2, List.zipWith_map_right, List.zipWith_map_right,
        zipWith_zipWith_same]
    have hfun : (fun (r : List Val) (p : String × String) =>
        (fun r v => r ++ [v]) ((fun r v => r ++ [v]) r (Val.s p.1)) (Val.s p.2)) =
          fun (r : List Val) (p : String × String) => r ++ [Val.s p.1, Val.s p.2] := by
      funext r p
      simp
    rw [hfun]
    congr 1
    simp
  simp only [hassign]
  rw [map_mk_zipWith]

lemma applyNew_newcol {C : List ColKey} {src dst : ColKey} {i : Nat}
    (hs : idxOf? src C = some i) (hd : idxOf? dst C = Option.none)
    (f : Val → Option Val) (rows : List (List Val)) :
    applyNew ⟨C, rows⟩ src dst f =
      (omap (fun r => (f (r.getD i .nan)).map (fun v => r ++ [v])) rows).map
        (fun rs => (⟨C ++ [dst], rs⟩ : Frame)) := by
  unfold applyNew
  rw [getColVals_at hs, omap_map]
  simp only [assignCol_new hd]
  rw [map_mk_zipWith]

lemma applyNew_setcol {C : List ColKey} {src dst : ColKey} {i j : Nat}
    (hs : idxOf? src C = some i) (hd : idxOf? dst C = some j)
    (f : Val → Option Val) (rows : List (List Val)) :
    applyNew ⟨C, rows⟩ src dst f =
      (omap (fun r => (f (r.getD i .nan)).map (fun v => r.set j v)) rows).map
        (fun rs => (⟨C, rs⟩ : Frame)) := by
  unfold applyNew
  rw [getColVals_at hs, omap_map]
  simp only [assignCol_at hd]
  rw [map_mk_zipWith]

lemma assignConst_new {C : List ColKey} {c : ColKey} (h : idxOf? c C = Option.none)
    (rows : List (List Val)) (v : Val) :
    assignConst ⟨C, rows⟩ c v = ⟨C ++ [c], rows.map (fun r => r ++ [v])⟩ := by
  unfold assignConst
  rw [assignCol_new h]
  congr 1
  rw [List.zipWith_map_right, List.zipWith_same]

lemma assign_flag {C : List ColKey} {cq cf : ColKey} {i : Nat} (hq : idxOf? cq C = some i)
    (hf : idxOf? cf C = Option.none) (rows : List (List Val)) (g : Val → Val) :
    assignCol ⟨C, rows⟩ cf ((getColVals ⟨C, rows⟩ cq).map g) =
      ⟨C ++ [cf], rows.map (fun r => r ++ [g (r.getD i .nan)])⟩ := by
  rw [getColVals_at hq, assignCol_new hf]
  congr 1
  rw [List.map_map, List.zipWith_map_right, List.zipWith_same]
  rfl

/-! Rectangularity plumbing: the stacked frame has ten-cell rows. -/

lemma insIdx_length {α : Type _} : ∀ (n : Nat) (a : α) (l : List α),
    (insIdx n a l).length = l.length + 1
  | 0, _, _ => rfl
  | _ + 1, _, [] => rfl
  | n + 1, a, _ :: xs => by simp [insIdx, insIdx_length n a xs]

lemma insertUnit_rect {g a : Frame} (h : insertUnit g = some a) (hg : g.Rect) : a.Rect := by
  unfold insertUnit at h
  split at h
  · cases h
    exact hg
  · split at h
    · cases h
    · cases h
      intro r hr
      simp only [List.mem_map] at hr
      obtain ⟨r0, hr0, rfl⟩ := hr
      simp [insIdx_length, hg r0 hr0]

lemma renameCols_facts {a b : Frame} (h : renameCols a = some b) :
    b.cols.length = a.cols.length ∧ 9 ≤ b.cols.length ∧ b.rows = a.rows := by
  unfold renameCols at h
  split at h
  · rename_i h9
    cases h
    refine ⟨?_, ?_, rfl⟩
    · simp [index_cols]
      omega
    · simp [index_cols]
  · cases h

lemma ffillAt_length (i : Nat) : ∀ (prev : Val) (rows : List (List Val)) (r : List Val),
    r ∈ ffillAt i prev rows → ∃ r0 ∈ rows, r.length = r0.length
  | _, [], _, h => by cases h
  | prev, r0 :: rest, r, h => by
    cases h with
    | head => exact ⟨r0, List.mem_cons_self r0 rest, by simp⟩
    | tail _ h2 =>
      obtain ⟨r1, hr1, hlen⟩ := ffillAt_length i _ rest r h2
      exact ⟨r1, List.mem_cons_of_mem r0 hr1, hlen⟩

lemma ffill2_rows_length {fr : Frame} (hrect : fr.Rect) :
    ∀ r ∈ (ffill2 fr).rows, r.length = fr.cols.length := by
  intro r hr
  unfold ffill2 at hr
  split at hr
  · rename_i i1 i2 heq1 heq2
    simp only at hr
    obtain ⟨r1, hr1, hlen1⟩ := ffillAt_length i2 .nan _ r hr
    obtain ⟨r0, hr0, hlen0⟩ := ffillAt_length i1 .nan _ r1 hr1
    rw [hlen1, hlen0]
    exact hrect r0 hr0
  · exact hrect r hr

lemma stackOf_cols {g st : Frame} (h : stackOf g = some st) : st.cols = stackCols := by
  unfold stackOf at h
  cases hi : insertUnit g with
  | none => rw [hi] at h; cases h
  | some a =>
    rw [hi] at h
    simp only [Option.bind_eq_bind, Option.some_bind] at h
    cases hr : renameCols a with
    | none => rw [hr] at h; cases h
    | some b =>
      rw [hr] at h
      simp only [Option.some_bind, pure] at h
      cases h
      rfl

lemma stackOf_row_len {g st : Frame} (hg : g.Rect) (h : stackOf g = some st) :
    ∀ r ∈ st.rows, r.length = 10 := by
  unfold stackOf at h
  cases hi : insertUnit g with
  | none => rw [hi] at h; cases h
  | some a =>
    rw [hi] at h
    simp only [Option.bind_eq_bind, Option.some_bind] at h
    cases hr : renameCols a with
    | none => rw [hr] at h; cases h
    | some b =>
      rw [hr] at h
      simp only [Option.some_bind, pure] at h
      cases h
      have harect : a.Rect := insertUnit_rect hi hg
      obtain ⟨hlen, h9, hrows⟩ := renameCols_facts hr
      intro r hr2
      simp only [unpivot, List.mem_flatMap, List.mem_filterMap] at hr2
      obtain ⟨r0, hr0, p, hp, hval⟩ := hr2
      split at hval
      · cases hval
      · cases hval
        have hr0len : r0.length = b.cols.length := by
          have hbr : b.Rect := by
            intro r2 hr2b
            rw [hrows] at hr2b
            rw [hlen]
            exact harect r2 hr2b
          exact ffill2_rows_length hbr r0 hr0
        simp only [List.length_append, List.length_take]
        rw [hr0len]
        simp
        omega

lemma bind_some_eq_map {α β : Type _} (x : Option α) (f : α → β) :
    x.bind (fun a => some (f a)) = x.map f := by
  cases x <;> rfl

lemma map_mk_listmap (cs : List ColKey) (g : List Val → List Val)
    (x : Option (List (List Val))) :
    x.map (fun rs => (⟨cs, rs.map g⟩ : Frame)) =
      (x.map (List.map g)).map (fun rs => (⟨cs, rs⟩ : Frame)) := by
  cases x <;> rfl

lemma len10_explode (r : List Val) (h : r.length = 10) :
    ∃ a0 a1 a2 a3 a4 a5 a6 a7 a8 a9, r = [a0, a1, a2, a3, a4, a5, a6, a7, a8, a9] := by
  rcases r with _ | ⟨a0, r⟩; · simp at h
  rcases r with _ | ⟨a1, r⟩; · simp at h
  rcases r with _ | ⟨a2, r⟩; · simp at h
  rcases r with _ | ⟨a3, r⟩; · simp at h
  rcases r with _ | ⟨a4, r⟩; · simp at h
  rcases r with _ | ⟨a5, r⟩; · simp at h
  rcases r with _ | ⟨a6, r⟩; · simp at h
  rcases r with _ | ⟨a7, r⟩; · simp at h
  rcases r with _ | ⟨a8, r⟩; · simp at h
  rcases r with _ | ⟨a9, r⟩; · simp at h
  rcases r with _ | ⟨a10, r⟩
  · exact ⟨a0, a1, a2, a3, a4, a5, a6, a7, a8, a9, rfl⟩
  · simp at h

lemma omap_bind_omap_bind {α β γ δ : Type _} (f : α → Option β) (g : β → Option γ)
    (l : List α) (k : List γ → Option δ) :
    (omap f l).bind (fun ys => (omap g ys).bind k) =
      (omap (fun a => (f a).bind g) l).bind k := by
  rw [← omap_bind_omap f g l]
  cases omap f l with
  | none => rfl
  | some ys => rfl

lemma omap_bind_omap_map {α β γ δ : Type _} (f : α → Option β) (g : β → Option γ)
    (l : List α) (k : List γ → δ) :
    (omap f l).bind (fun ys => (omap g ys).map k) =
      (omap (fun a => (f a).bind g) l).map k := by
  rw [← omap_bind_omap f g l]
  cases omap f l with
  | none => rfl
  | some ys => rfl

lemma transform_sex_nf (g : Frame) (fi : FileInfo) (mc : String) (st : Frame)
    (hst : stackOf g = some st) (hm : fi.method = "性年齢別")
    (hlen : ∀ r ∈ st.rows, r.length = 10) :
    transform g fi mc =
      (omap (sexRowF fi mc) st.rows).map (fun rs => (⟨outCols sexDims, rs⟩ : Frame)) := by
  obtain ⟨cols, rows⟩ := st
  have hc : cols = stackCols := stackOf_cols hst
  subst hc
  simp only at hlen
  unfold transform
  rw [hst]
  simp only [Option.bind_eq_bind, Option.some_bind]
  unfold methodStep
  rw [if_pos hm]
  rw [splitKeyCol_nf (show idxOf? (.name "集計単位") stackCols = some 8 by decide)
        (show idxOf? (.name "性別") stackCols = Option.none by decide)
        (show idxOf? (.name "年齢区間") (stackCols ++ [ColKey.name "性別"]) = Option.none
          by decide)]
  have e1 : idxOf? (ColKey.name "性別")
      (stackCols ++ [ColKey.name "性別", ColKey.name "年齢区間"]) = some 10 := by decide
  have e2 : idxOf? (ColKey.name "年齢区間")
      (stackCols ++ [ColKey.name "性別", ColKey.name "年齢区間"]) = some 11 := by decide
  have e3 : idxOf? (ColKey.name "年齢")
      (stackCols ++ [ColKey.name "性別", ColKey.name "年齢区間"]) = Option.none := by decide
  have e4 : omap (fun c => idxOf? c
        (stackCols ++ [ColKey.name "性別", ColKey.name "年齢区間"] ++ [ColKey.name "年齢"]))
      (List.map ColKey.name index_cols ++
        [ColKey.name "性別", ColKey.name "年齢", ColKey.name "年齢区間", ColKey.name "処方数量"]) =
      some [0, 1, 2, 3, 4, 5, 6, 7, 10, 12, 11, 9] := by decide
  have e5 : idxOf? (ColKey.name "処方数量")
      (List.map ColKey.name index_cols ++
        [ColKey.name "性別", ColKey.name "年齢", ColKey.name "年齢区間", ColKey.name "処方数量"]) =
      some 11 := by decide
  have e6 : idxOf? (ColKey.name "最小集計単位未満")
      (List.map ColKey.name index_cols ++
        [ColKey.name "性別", ColKey.name "年齢", ColKey.name "年齢区間", ColKey.name "処方数量"]) =
      Option.none := by decide
  have e7 : idxOf? (ColKey.name "処方数量")
      (List.map ColKey.name index_cols ++
        [ColKey.name "性別", ColKey.name "年齢", ColKey.name "年齢区間", ColKey.name "処方数量"] ++
        [ColKey.name "最小集計単位未満"]) = some 11 := by decide
  have e8 : idxOf? (ColKey.name "実施回")
      (List.map ColKey.name index_cols ++
        [ColKey.name "性別", ColKey.name "年齢", ColKey.name "年齢区間", ColKey.name "処方数量"] ++
        [ColKey.name "最小集計単位未満"]) = Option.none := by decide
  have e9 : idxOf? (ColKey.name "年度")
      (List.map ColKey.name index_cols ++
        [ColKey.name "性別", ColKey.name "年齢", ColKey.name "年齢区間", ColKey.name "処方数量"] ++
        [ColKey.name "最小集計単位未満"] ++ [ColKey.name "実施回"]) = Option.none := by decide
  have e10 : idxOf? (ColKey.name "剤形")
      (List.map ColKey.name index_cols ++
        [ColKey.name "性別", ColKey.name "年齢", ColKey.name "年齢区間", ColKey.name "処方数量"] ++
        [ColKey.name "最小集計単位未満"] ++ [ColKey.name "実施回"] ++ [ColKey.name "年度"]) =
      Option.none := by decide
  have e11 : idxOf? (ColKey.name "診療区分")
      (List.map ColKey.name index_cols ++
        [ColKey.name "性別", ColKey.name "年齢", ColKey.name "年齢区間", ColKey.name "処方数量"] ++
        [ColKey.name "最小集計単位未満"] ++ [ColKey.name "実施回"] ++ [ColKey.name "年度"] ++
        [ColKey.name "剤形"]) = Option.none := by decide
  have e12 : omap (fun c => idxOf? c
        (List.map ColKey.name index_cols ++
          [ColKey.name "性別", ColKey.name "年齢", ColKey.name "年齢区間", ColKey.name "処方数量"] ++
          [ColKey.name "最小集計単位未満"] ++ [ColKey.name "実施回"] ++ [ColKey.name "年度"] ++
          [ColKey.name "剤形"] ++ [ColKey.name "診療区分"]))
      ([ColKey.name "実施回", ColKey.name "年度", ColKey.name "剤形", ColKey.name "診療区分"] ++
        (List.map ColKey.name index_cols ++
          [ColKey.name "性別", ColKey.name "年齢", ColKey.name "年齢区間", ColKey.name "処方数量"] ++
          [ColKey.name "最小集計単位未満"])) =
      some [13, 14, 15, 16, 0, 1, 2, 3, 4, 5, 6, 7, 8, 9, 10, 11, 12] := by decide
  have f0 : List ColKey :=
    [ColKey.name "実施回", ColKey.name "年度", ColKey.name "剤形", ColKey.name "診療区分"] ++
      (List.map ColKey.name index_cols ++
        [ColKey.name "性別", ColKey.name "年齢", ColKey.name "年齢区間", ColKey.name "処方数量"] ++
        [ColKey.name "最小集計単位未満"])
  have e13 : idxOf? (ColKey.name "実施回")
      ([ColKey.name "実施回", ColKey.name "年度", ColKey.name "剤形", ColKey.name "診療区分"] ++
        (List.map ColKey.name index_cols ++
          [ColKey.name "性別", ColKey.name "年齢", ColKey.name "年齢区間", ColKey.name "処方数量"] ++
          [ColKey.name "最小集計単位未満"])) = some 0 := by decide
  have e14 : idxOf? (ColKey.name "年度")
      ([ColKey.name "実施回", ColKey.name "年度", ColKey.name "剤形", ColKey.name "診療区分"] ++
        (List.map ColKey.name index_cols ++
          [ColKey.name "性別", ColKey.name "年齢", ColKey.name "年齢区間", ColKey.name "処方数量"] ++
          [ColKey.name "最小集計単位未満"])) = some 1 := by decide
  have e15 : idxOf? (ColKey.name "後発品区分")
      ([ColKey.name "実施回", ColKey.name "年度", ColKey.name "剤形", ColKey.name "診療区分"] ++
        (List.map ColKey.name index_cols ++
          [ColKey.name "性別", ColKey.name "年齢", ColKey.name "年齢区間", ColKey.name "処方数量"] ++
          [ColKey.name "最小集計単位未満"])) = some 11 := by decide
  have e16 : idxOf? (ColKey.name "薬価")
      ([ColKey.name "実施回", ColKey.name "年度", ColKey.name "剤形", ColKey.name "診療区分"] ++
        (List.map ColKey.name index_cols ++
          [ColKey.name "性別", ColKey.name "年齢", ColKey.name "年齢区間", ColKey.name "処方数量"] ++
          [ColKey.name "最小集計単位未満"])) = some 10 := by decide
  have e17 : idxOf? (ColKey.name "処方数量")
      ([ColKey.name "実施回", ColKey.name "年度", ColKey.name "剤形", ColKey.name "診療区分"] ++
        (List.map ColKey.name index_cols ++
          [ColKey.name "性別", ColKey.name "年齢", ColKey.name "年齢区間", ColKey.name "処方数量"] ++
          [ColKey.name "最小集計単位未満"])) = some 15 := by decide
  simp only [mapCol_at e1, applyNew_newcol e2 e3, selectCols_at e4, assign_flag e5 e6,
    mapCol_at e7, assignConst_new e8, assignConst_new e9, assignConst_new e10,
    assignConst_new e11, selectCols_at e12, castCol_at e13, castCol_at e14, castCol_at e15,
    castCol_at e16, castCol_at e17, Option.bind_eq_bind, Option.some_bind, mapBind,
    Option.bind_assoc, bind_some_eq_map, omap_map, map_omap, omap_bind_omap_bind,
    omap_bind_omap_map, List.map_map, Option.map_map]
  have hco : ([ColKey.name "実施回", ColKey.name "年度", ColKey.name "剤形", ColKey.name "診療区分"] ++
      (List.map ColKey.name index_cols ++
        [ColKey.name "性別", ColKey.name "年齢", ColKey.name "年齢区間", ColKey.name "処方数量"] ++
        [ColKey.name "最小集計単位未満"])) = outCols sexDims := by decide
  simp only [hco]
  refine congrArg _ (omap_congr fun r hr => ?_)
  obtain ⟨a0, a1, a2, a3, a4, a5, a6, a7, a8, a9, rfl⟩ := len10_explode r (hlen r hr)
  rcases hup : unpackPair a8 with _ | p
  · simp [sexRowF, hup]
  · rcases haf : ageFloorStr p.2 with _ | age
    · simp [sexRowF, hup, haf, Function.comp, ageFloorV, stripSeiV, mapBind]
    · simp [sexRowF, finRow, hup, haf, Function.comp, ageFloorV, stripSeiV, mapBind,
        castInt8, castInt16, Option.bind_assoc, bind_some_eq_map]

lemma transform_pref_nf (g : Frame) (fi : FileInfo) (mc : String) (st : Frame)
    (hst : stackOf g = some st) (hm : fi.method = "都道府県別")
    (hlen : ∀ r ∈ st.rows, r.length = 10) :
    transform g fi mc =
      (omap (prefRowF fi mc) st.rows).map (fun rs => (⟨outCols prefDims, rs⟩ : Frame)) := by
  obtain ⟨cols, rows⟩ := st
  have hc : cols = stackCols := stackOf_cols hst
  subst hc
  simp only at hlen
  unfold transform
  rw [hst]
  simp only [Option.bind_eq_bind, Option.some_bind]
  unfold methodStep
  rw [if_neg (by rw [hm]; decide), if_pos hm]
  rw [splitKeyCol_nf (show idxOf? (.name "集計単位") stackCols = some 8 by decide)
        (show idxOf? (.name "都道府県コード") stackCols = Option.none by decide)
        (show idxOf? (.name "都道府県名") (stackCols ++ [ColKey.name "都道府県コード"]) =
          Option.none by decide)]
  have e1 : idxOf? (ColKey.name "都道府県コード")
      (stackCols ++ [ColKey.name "都道府県コード", ColKey.name "都道府県名"]) = some 10 := by decide
  have e4 : omap (fun c => idxOf? c
        (stackCols ++ [ColKey.name "都道府県コード", ColKey.name "都道府県名"]))
      (List.map ColKey.name index_cols ++
        [ColKey.name "都道府県コード", ColKey.name "都道府県名", ColKey.name "処方数量"]) =
      some [0, 1, 2, 3, 4, 5, 6, 7, 10, 11, 9] := by decide
  have e5 : idxOf? (ColKey.name "処方数量")
      (List.map ColKey.name index_cols ++
        [ColKey.name "都道府県コード", ColKey.name "都道府県名", ColKey.name "処方数量"]) =
      some 10 := by decide
  have e6 : idxOf? (ColKey.name "最小集計単位未満")
      (List.map ColKey.name index_cols ++
        [ColKey.name "都道府県コード", ColKey.name "都道府県名", ColKey.name "処方数量"]) =
      Option.none := by decide
  have e7 : idxOf? (ColKey.name "処方数量")
      (List.map ColKey.name index_cols ++
        [ColKey.name "都道府県コード", ColKey.name "都道府県名", ColKey.name "処方数量"] ++
        [ColKey.name "最小集計単位未満"]) = some 10 := by decide
  have e8 : idxOf? (ColKey.name "実施回")
      (List.map ColKey.name index_cols ++
        [ColKey.name "都道府県コード", ColKey.name "都道府県名", ColKey.name "処方数量"] ++
        [ColKey.name "最小集計単位未満"]) = Option.none := by decide
  have e9 : idxOf? (ColKey.name "年度")
      (List.map ColKey.name index_cols ++
        [ColKey.name "都道府県コード", ColKey.name "都道府県名", ColKey.name "処方数量"] ++
        [ColKey.name "最小集計単位未満"] ++ [ColKey.name "実施回"]) = Option.none := by decide
  have e10 : idxOf? (ColKey.name "剤形")
      (List.map ColKey.name index_cols ++
        [ColKey.name "都道府県コード", ColKey.name "都道府県名", ColKey.name "処方数量"] ++
        [ColKey.name "最小集計単位未満"] ++ [ColKey.name "実施回"] ++ [ColKey.name "年度"]) =
      Option.none := by decide
  have e11 : idxOf? (ColKey.name "診療区分")
      (List.map ColKey.name index_cols ++
        [ColKey.name "都道府県コード", ColKey.name "都道府県名", ColKey.name "処方数量"] ++
        [ColKey.name "最小集計単位未満"] ++ [ColKey.name "実施回"] ++ [ColKey.name "年度"] ++
        [ColKey.name "剤形"]) = Option.none := by decide
  have e12 : omap (fun c => idxOf? c
        (List.map ColKey.name index_cols ++
          [ColKey.name "都道府県コード", ColKey.name "都道府県名", ColKey.name "処方数量"] ++
          [ColKey.name "最小集計単位未満"] ++ [ColKey.name "実施回"] ++ [ColKey.name "年度"] ++
          [ColKey.name "剤形"] ++ [ColKey.name "診療区分"]))
      ([ColKey.name "実施回", ColKey.name "年度", ColKey.name "剤形", ColKey.name "診療区分"] ++
        (List.map ColKey.name index_cols ++
          [ColKey.name "都道府県コード", ColKey.name "都道府県名", ColKey.name "処方数量"] ++
          [ColKey.name "最小集計単位未満"])) =
      some [12, 13, 14, 15, 0, 1, 2, 3, 4, 5, 6, 7, 8, 9, 10, 11] := by decide
  have e13 : idxOf? (ColKey.name "実施回")
      ([ColKey.name "実施回", ColKey.name "年度", ColKey.name "剤形", ColKey.name "診療区分"] ++
        (List.map ColKey.name index_cols ++
          [ColKey.name "都道府県コード", ColKey.name "都道府県名", ColKey.name "処方数量"] ++
          [ColKey.name "最小集計単位未満"])) = some 0 := by decide
  have e14 : idxOf? (ColKey.name "年度")
      ([ColKey.name "実施回", ColKey.name "年度", ColKey.name "剤形", ColKey.name "診療区分"] ++
        (List.map ColKey.name index_cols ++
          [ColKey.name "都道府県コード", ColKey.name "都道府県名", ColKey.name "処方数量"] ++
          [ColKey.name "最小集計単位未満"])) = some 1 := by decide
  have e15 : idxOf? (ColKey.name "後発品区分")
      ([ColKey.name "実施回", ColKey.name "年度", ColKey.name "剤形", ColKey.name "診療区分"] ++
        (List.map ColKey.name index_cols ++
          [ColKey.name "都道府県コード", ColKey.name "都道府県名", ColKey.name "処方数量"] ++
          [ColKey.name "最小集計単位未満"])) = some 11 := by decide
  have e16 : idxOf? (ColKey.name "薬価")
      ([ColKey.name "実施回", ColKey.name "年度", ColKey.name "剤形", ColKey.name "診療区分"] ++
        (List.map ColKey.name index_cols ++
          [ColKey.name "都道府県コード", ColKey.name "都道府県名", ColKey.name "処方数量"] ++
          [ColKey.name "最小集計単位未満"])) = some 10 := by decide
  have e17 : idxOf? (ColKey.name "処方数量")
      ([ColKey.name "実施回", ColKey.name "年度", ColKey.name "剤形", ColKey.name "診療区分"] ++
        (List.map ColKey.name index_cols ++
          [ColKey.name "都道府県コード", ColKey.name "都道府県名", ColKey.name "処方数量"] ++
          [ColKey.name "最小集計単位未満"])) = some 14 := by decide
  simp only [mapCol_at e1, selectCols_at e4, assign_flag e5 e6,
    mapCol_at e7, assignConst_new e8, assignConst_new e9, assignConst_new e10,
    assignConst_new e11, selectCols_at e12, castCol_at e13, castCol_at e14, castCol_at e15,
    castCol_at e16, castCol_at e17, Option.bind_eq_bind, Option.some_bind, mapBind,
    Option.bind_assoc, bind_some_eq_map, omap_map, map_omap, omap_bind_omap_bind,
    omap_bind_omap_map, List.map_map, Option.map_map]
  have hco : ([ColKey.name "実施回", ColKey.name "年度", ColKey.name "剤形", ColKey.name "診療区分"] ++
      (List.map ColKey.name index_cols ++
        [ColKey.name "都道府県コード", ColKey.name "都道府県名", ColKey.name "処方数量"] ++
        [ColKey.name "最小集計単位未満"])) = outCols prefDims := by decide
  simp only [hco]
  refine congrArg _ (omap_congr fun r hr => ?_)
  obtain ⟨a0, a1, a2, a3, a4, a5, a6, a7, a8, a9, rfl⟩ := len10_explode r (hlen r hr)
  rcases hup : unpackPair a8 with _ | p
  · simp [prefRowF, hup]
  · simp [prefRowF, finRow, hup, Function.comp, mapBind, castInt8, castInt16,
      Option.bind_assoc, bind_some_eq_map]

lemma transform_month_nf (g : Frame) (fi : FileInfo) (mc : String) (st : Frame)
    (hst : stackOf g = some st) (hm : fi.method = "診療月別")
    (hlen : ∀ r ∈ st.rows, r.length = 10) :
    transform g fi mc =
      (omap (monthRowF fi mc) st.rows).map (fun rs => (⟨outCols monthDims, rs⟩ : Frame)) := by
  obtain ⟨cols, rows⟩ := st
  have hc : cols = stackCols := stackOf_cols hst
  subst hc
  simp only at hlen
  unfold transform
  rw [hst]
  simp only [Option.bind_eq_bind, Option.some_bind]
  unfold methodStep
  rw [if_neg (by rw [hm]; decide), if_neg (by rw [hm]; decide), if_pos hm]
  rw [splitKeyCol_nf (show idxOf? (.name "集計単位") stackCols = some 8 by decide)
        (show idxOf? (.name "診療月") stackCols = Option.none by decide)
        (show idxOf? (.name "診療年月") (stackCols ++ [ColKey.name "診療月"]) =
          Option.none by decide)]
  have e1 : idxOf? (ColKey.name "診療月")
      (stackCols ++ [ColKey.name "診療月", ColKey.name "診療年月"]) = some 10 := by decide
  have e2 : idxOf? (ColKey.name "診療年月")
      (stackCols ++ [ColKey.name "診療月", ColKey.name "診療年月"]) = some 11 := by decide
  have e4 : omap (fun c => idxOf? c
        (stackCols ++ [ColKey.name "診療月", ColKey.name "診療年月"]))
      (List.map ColKey.name index_cols ++
        [ColKey.name "診療月", ColKey.name "診療年月", ColKey.name "処方数量"]) =
      some [0, 1, 2, 3, 4, 5, 6, 7, 10, 11, 9] := by decide
  have e5 : idxOf? (ColKey.name "処方数量")
      (List.map ColKey.name index_cols ++
        [ColKey.name "診療月", ColKey.name "診療年月", ColKey.name "処方数量"]) =
      some 10 := by decide
  have e6 : idxOf? (ColKey.name "最小集計単位未満")
      (List.map ColKey.name index_cols ++
        [ColKey.name "診療月", ColKey.name "診療年月", ColKey.name "処方数量"]) =
      Option.none := by decide
  have e7 : idxOf? (ColKey.name "処方数量")
      (List.map ColKey.name index_cols ++
        [ColKey.name "診療月", ColKey.name "診療年月", ColKey.name "処方数量"] ++
        [ColKey.name "最小集計単位未満"]) = some 10 := by decide
  have e8 : idxOf? (ColKey.name "実施回")
      (List.map ColKey.name index_cols ++
        [ColKey.name "診療月", ColKey.name "診療年月", ColKey.name "処方数量"] ++
        [ColKey.name "最小集計単位未満"]) = Option.none := by decide
  have e9 : idxOf? (ColKey.name "年度")
      (List.map ColKey.name index_cols ++
        [ColKey.name "診療月", ColKey.name "診療年月", ColKey.name "処方数量"] ++
        [ColKey.name "最小集計単位未満"] ++ [ColKey.name "実施回"]) = Option.none := by decide
  have e10 : idxOf? (ColKey.name "剤形")
      (List.map ColKey.name index_cols ++
        [ColKey.name "診療月", ColKey.name "診療年月", ColKey.name "処方数量"] ++
        [ColKey.name "最小集計単位未満"] ++ [ColKey.name "実施回"] ++ [ColKey.name "年度"]) =
      Option.none := by decide
  have e11 : idxOf? (ColKey.name "診療区分")
      (List.map ColKey.name index_cols ++
        [ColKey.name "診療月", ColKey.name "診療年月", ColKey.name "処方数量"] ++
        [ColKey.name "最小集計単位未満"] ++ [ColKey.name "実施回"] ++ [ColKey.name "年度"] ++
        [ColKey.name "剤形"]) = Option.none := by decide
  have e12 : omap (fun c => idxOf? c
        (List.map ColKey.name index_cols ++
          [ColKey.name "診療月", ColKey.name "診療年月", ColKey.name "処方数量"] ++
          [ColKey.name "最小集計単位未満"] ++ [ColKey.name "実施回"] ++ [ColKey.name "年度"] ++
          [ColKey.name "剤形"] ++ [ColKey.name "診療区分"]))
      ([ColKey.name "実施回", ColKey.name "年度", ColKey.name "剤形", ColKey.name "診療区分"] ++
        (List.map ColKey.name index_cols ++
          [ColKey.name "診療月", ColKey.name "診療年月", ColKey.name "処方数量"] ++
          [ColKey.name "最小集計単位未満"])) =
      some [12, 13, 14, 15, 0, 1, 2, 3, 4, 5, 6, 7, 8, 9, 10, 11] := by decide
  have e13 : idxOf? (ColKey.name "実施回")
      ([ColKey.name "実施回", ColKey.name "年度", ColKey.name "剤形", ColKey.name "診療区分"] ++
        (List.map ColKey.name index_cols ++
          [ColKey.name "診療月", ColKey.name "診療年月", ColKey.name "処方数量"] ++
          [ColKey.name "最小集計単位未満"])) = some 0 := by decide
  have e14 : idxOf? (ColKey.name "年度")
      ([ColKey.name "実施回", ColKey.name "年度", ColKey.name "剤形", ColKey.name "診療区分"] ++
        (List.map ColKey.name index_cols ++
          [ColKey.name "診療月", ColKey.name "診療年月", ColKey.name "処方数量"] ++
          [ColKey.name "最小集計単位未満"])) = some 1 := by decide
  have e15 : idxOf? (ColKey.name "後発品区分")
      ([ColKey.name "実施回", ColKey.name "年度", ColKey.name "剤形", ColKey.name "診療区分"] ++
        (List.map ColKey.name index_cols ++
          [ColKey.name "診療月", ColKey.name "診療年月", ColKey.name "処方数量"] ++
          [ColKey.name "最小集計単位未満"])) = some 11 := by decide
  have e16 : idxOf? (ColKey.name "薬価")
      ([ColKey.name "実施回", ColKey.name "年度", ColKey.name "剤形", ColKey.name "診療区分"] ++
        (List.map ColKey.name index_cols ++
          [ColKey.name "診療月", ColKey.name "診療年月", ColKey.name "処方数量"] ++
          [ColKey.name "最小集計単位未満"])) = some 10 := by decide
  have e17 : idxOf? (ColKey.name "処方数量")
      ([ColKey.name "実施回", ColKey.name "年度", ColKey.name "剤形", ColKey.name "診療区分"] ++
        (List.map ColKey.name index_cols ++
          [ColKey.name "診療月", ColKey.name "診療年月", ColKey.name "処方数量"] ++
          [ColKey.name "最小集計単位未満"])) = some 14 := by decide
  simp only [applyNew_setcol e1 e2, selectCols_at e4, assign_flag e5 e6,
    mapCol_at e7, assignConst_new e8, assignConst_new e9, assignConst_new e10,
    assignConst_new e11, selectCols_at e12, castCol_at e13, castCol_at e14, castCol_at e15,
    castCol_at e16, castCol_at e17, Option.bind_eq_bind, Option.some_bind, mapBind,
    Option.bind_assoc, bind_some_eq_map, omap_map, map_omap, omap_bind_omap_bind,
    omap_bind_omap_map, List.map_map, Option.map_map]
  have hco : ([ColKey.name "実施回", ColKey.name "年度", ColKey.name "剤形", ColKey.name "診療区分"] ++
      (List.map ColKey.name index_cols ++
        [ColKey.name "診療月", ColKey.name "診療年月", ColKey.name "処方数量"] ++
        [ColKey.name "最小集計単位未満"])) = outCols monthDims := by decide
  simp only [hco]
  refine congrArg _ (omap_congr fun r hr => ?_)
  obtain ⟨a0, a1, a2, a3, a4, a5, a6, a7, a8, a9, rfl⟩ := len10_explode r (hlen r hr)
  rcases hup : unpackPair a8 with _ | p
  · simp [monthRowF, hup]
  · rcases hym : monthYm fi.nth p.1 with _ | ym
    · simp [monthRowF, hup, hym, Function.comp, monthYmV, mapBind]
    · simp [monthRowF, finRow, hup, hym, Function.comp, monthYmV, mapBind,
        castInt8, castInt16, Option.bind_assoc, bind_some_eq_map]

/-- A successful transform presupposes a successful stack step. -/
lemma transform_stackOf {g : Frame} {fi : FileInfo} {mc : String} {out : Frame}
    (h : transform g fi mc = some out) : ∃ st, stackOf g = some st := by
  unfold transform at h
  cases hst : stackOf g with
  | none => rw [hst] at h; simp at h
  | some st => exact ⟨st, rfl⟩

/-- C8: for every rectangular input grid and every supported aggregation
method, a successful transform yields exactly the documented fixed column
order — the identification prefix (cycle, fiscal year, dosage form, care
setting, the eight drug identification columns), then the method dimension
columns, then quantity and the below-threshold flag — and the shared
identification prefix (the first twelve columns) is identical across all
three methods. -/
theorem C8_fixed_output_schema (g : Frame) (fi : FileInfo) (mc : String) (out : Frame)
    (hg : g.Rect) (hm : fi.method ∈ method_values)
    (h : transform g fi mc = some out) :
    out.cols = (specSchema fi.method).map ColKey.name ∧
      ∀ m1 ∈ method_values, ∀ m2 ∈ method_values,
        (specSchema m1).take 12 = (specSchema m2).take 12 := by
  refine ⟨?_, by decide⟩
  obtain ⟨st, hst⟩ := transform_stackOf h
  have hlen := stackOf_row_len hg hst
  simp only [method_values, List.mem_cons, List.not_mem_nil, or_false] at hm
  rcases hm with hm | hm | hm
  · rw [transform_sex_nf g fi mc st hst hm hlen] at h
    cases ho : omap (sexRowF fi mc) st.rows with
    | none => rw [ho] at h; simp at h
    | some rs =>
      rw [ho] at h
      simp only [Option.map_some'] at h
      obtain rfl : (⟨outCols sexDims, rs⟩ : Frame) = out := Option.some.inj h
      rw [hm]
      show outCols sexDims = (specSchema "性年齢別").map ColKey.name
      decide
  · rw [transform_pref_nf g fi mc st hst hm hlen] at h
    cases ho : omap (prefRowF fi mc) st.rows with
    | none => rw [ho] at h; simp at h
    | some rs =>
      rw [ho] at h
      simp only [Option.map_some'] at h
      obtain rfl : (⟨outCols prefDims, rs⟩ : Frame) = out := Option.some.inj h
      rw [hm]
      show outCols prefDims = (specSchema "都道府県別").map ColKey.name
      decide
  · rw [transform_month_nf g fi mc st hst hm hlen] at h
    cases ho : omap (monthRowF fi mc) st.rows with
    | none => rw [ho] at h; simp at h
    | some rs =>
      rw [ho] at h
      simp only [Option.map_some'] at h
      obtain rfl : (⟨outCols monthDims, rs⟩ : Frame) = out := Option.some.inj h
      rw [hm]
      show outCols monthDims = (specSchema "診療月別").map ColKey.name
      decide

/-- A successful effectful map splits at a cons. -/
lemma omap_cons_some {α β : Type _} {f : α → Option β} {a : α} {l : List α} {l2 : List β}
    (h : omap f (a :: l) = some l2) :
    ∃ b bs, f a = some b ∧ omap f l = some bs ∧ l2 = b :: bs := by
  unfold omap at h
  cases hfa : f a with
  | none => rw [hfa] at h; cases h
  | some b =>
    rw [hfa] at h
    cases ho : omap f l with
    | none => rw [ho] at h; cases h
    | some bs =>
      rw [ho] at h
      cases h
      exact ⟨b, bs, rfl, rfl, rfl⟩

/-- A successful effectful map acts index-wise. -/
lemma omap_idx {α β : Type _} (f : α → Option β) (da : α) (db : β) :
    ∀ (l : List α) (l2 : List β), omap f l = some l2 →
      l2.length = l.length ∧ ∀ i, i < l.length → f (l.getD i da) = some (l2.getD i db)
  | [], l2, h => by
    cases h
    exact ⟨rfl, fun i hi => absurd hi (by simp)⟩
  | a :: l, l2, h => by
    obtain ⟨b, bs, hfa, ho, rfl⟩ := omap_cons_some h
    obtain ⟨hlen, hidx⟩ := omap_idx f da db l bs ho
    refine ⟨by simp [hlen], ?_⟩
    intro i hi
    cases i with
    | zero => simpa using hfa
    | succ j =>
      have hj : j < l.length := by simpa using hi
      simpa using hidx j hj

/-- A defaulted index below the length is a member. -/
lemma getD_mem_of_lt {α : Type _} : ∀ (l : List α) (i : Nat) (d : α),
    i < l.length → l.getD i d ∈ l
  | [], i, d, h => absurd h (by simp)
  | a :: l, 0, d, _ => List.mem_cons_self a l
  | a :: l, i + 1, d, h => by
    rw [List.getD_cons_succ]
    exact List.mem_cons_of_mem a (getD_mem_of_lt l i d (by simpa using h))

/-- Elements after a positional insertion. -/
lemma insIdx_mem {α : Type _} : ∀ (n : Nat) (a : α) (l : List α) (x : α),
    x ∈ insIdx n a l → x = a ∨ x ∈ l
  | 0, a, l, x, h => by
    simp only [insIdx] at h
    rcases List.mem_cons.mp h with h | h
    · exact Or.inl h
    · exact Or.inr h
  | n + 1, a, [], x, h => by
    simp only [insIdx] at h
    rcases List.mem_cons.mp h with h | h
    · exact Or.inl h
    · cases h
  | n + 1, a, y :: ys, x, h => by
    simp only [insIdx] at h
    rcases List.mem_cons.mp h with h | h
    · exact Or.inr (h ▸ List.mem_cons_self y ys)
    · rcases insIdx_mem n a ys x h with h | h
      · exact Or.inl h
      · exact Or.inr (List.mem_cons_of_mem y h)

/-- Forward fill preserves the cell discipline of a dtype=str sheet. -/
lemma ffillAt_cells (i : Nat) : ∀ (prev : Val) (rows : List (List Val)),
    (∀ r ∈ rows, ∀ v ∈ r, isStrCell v = true) → isStrCell prev = true →
    ∀ r ∈ ffillAt i prev rows, ∀ v ∈ r, isStrCell v = true
  | _, [], _, _, r, hr => by cases hr
  | prev, r0 :: rest, hrows, hprev, r, hr => by
    simp only [ffillAt] at hr
    have hr0 : ∀ v ∈ r0, isStrCell v = true := hrows r0 (List.mem_cons_self r0 rest)
    have hv0 : isStrCell (r0.getD i Val.nan) = true := by
      by_cases hi : i < r0.length
      · exact hr0 _ (getD_mem_of_lt r0 i Val.nan hi)
      · rw [List.getD_eq_default]
        · rfl
        · omega
    have hw : isStrCell (if r0.getD i Val.nan = Val.nan then prev else r0.getD i Val.nan)
        = true := by
      split
      · exact hprev
      · exact hv0
    rcases List.mem_cons.mp hr with h | h
    · subst h
      intro v hv
      rcases List.mem_or_eq_of_mem_set hv with hv | hv
      · exact hr0 v hv
      · rw [hv]; exact hw
    · exact ffillAt_cells i _ rest (fun r2 h2 => hrows r2 (List.mem_cons_of_mem r0 h2)) hw r h

/-- Reading past an appended prefix. -/
lemma getD_append_len {α : Type _} : ∀ (l1 l2 : List α) (n : Nat) (d : α),
    (l1 ++ l2).getD (l1.length + n) d = l2.getD n d
  | [], l2, n, d => by simp
  | a :: l1, l2, n, d => by
    simp only [List.cons_append, List.length_cons]
    rw [Nat.add_right_comm, List.getD_cons_succ]
    exact getD_append_len l1 l2 n d

/-- The two trailing cells of a row built by appending a pair. -/
lemma getD_snoc2 {α : Type _} (B : List α) (x y d : α) (n : Nat) (hn : B.length = n) :
    (B ++ [x, y]).getD n d = x ∧ (B ++ [x, y]).getD (n + 1) d = y := by
  constructor
  · rw [show n = B.length + 0 from by omega, getD_append_len]
    rfl
  · rw [show n + 1 = B.length + 1 from by omega, getD_append_len]
    rfl

/-- The pivot-key quantity cell of every stacked row of a dtype=str sheet is
a string: the un-pivot drops blank cells and every other cell is a source
cell. -/
lemma stack_qty_str {g st : Frame} (hg : g.Rect) (hs : StrCells g)
    (hst : stackOf g = some st) :
    ∀ r ∈ st.rows, ∃ s : String, r.getD 9 Val.nan = Val.s s := by
  unfold stackOf at hst
  cases hi : insertUnit g with
  | none => rw [hi] at hst; cases hst
  | some a =>
    rw [hi] at hst
    simp only [Option.bind_eq_bind, Option.some_bind] at hst
    cases hrn : renameCols a with
    | none => rw [hrn] at hst; cases hst
    | some b =>
      rw [hrn] at hst
      simp only [Option.some_bind, pure] at hst
      cases hst
      have harect : a.Rect := insertUnit_rect hi hg
      obtain ⟨hlen, h9, hrows⟩ := renameCols_facts hrn
      have hacells : ∀ r ∈ a.rows, ∀ v ∈ r, isStrCell v = true := by
        intro r hr v hv
        unfold insertUnit at hi
        split at hi
        · cases hi; exact hs r hr v hv
        · split at hi
          · cases hi
          · cases hi
            simp only [List.mem_map] at hr
            obtain ⟨r0, hr0, rfl⟩ := hr
            rcases insIdx_mem 4 Val.nan r0 v hv with rfl | hv2
            · rfl
            · exact hs r0 hr0 v hv2
      have hbrect : b.Rect := by
        intro r hr
        rw [hrows] at hr
        rw [hlen]
        exact harect r hr
      have hbcells : ∀ r ∈ b.rows, ∀ v ∈ r, isStrCell v = true := by
        rw [hrows]; exact hacells
      have hfcells : ∀ r ∈ (ffill2 b).rows, ∀ v ∈ r, isStrCell v = true := by
        intro r hr
        unfold ffill2 at hr
        split at hr
        · rename_i i1 i2 _ _
          simp only at hr
          exact ffillAt_cells i2 Val.nan _ (fun r2 h2 =>
            ffillAt_cells i1 Val.nan b.rows hbcells rfl r2 h2) rfl r hr
        · exact hbcells r hr
      have hflen : ∀ r ∈ (ffill2 b).rows, r.length = b.cols.length :=
        ffill2_rows_length hbrect
      intro r hrr
      simp only [unpivot, List.mem_flatMap, List.mem_filterMap] at hrr
      obtain ⟨r0, hr0, p, hp, hval⟩ := hrr
      split at hval
      · cases hval
      · rename_i hnotnan
        cases hval
        have hp2 : p.2 ∈ r0.drop 8 := (List.of_mem_zip hp).2
        have hp2cell : isStrCell p.2 = true :=
          hfcells r0 hr0 p.2 (List.mem_of_mem_drop hp2)
        have hlen8 : (r0.take 8).length = 8 := by
          have hl := hflen r0 hr0
          simp only [List.length_take]
          omega
        have hget : (r0.take 8 ++ [keyVal p.1, p.2]).getD 9 Val.nan = p.2 := by
          rw [show (9 : Nat) = (r0.take 8).length + 1 from by rw [hlen8], getD_append_len]
          rfl
        rw [hget]
        cases hv : p.2 with
        | s s0 => exact ⟨s0, rfl⟩
        | nan => exact absurd hv hnotnan
        | i n => rw [hv] at hp2cell; cases hp2cell
        | f m e => rw [hv] at hp2cell; cases hp2cell
        | pair x y => rw [hv] at hp2cell; cases hp2cell

/-- The quantity and flag cells a finalised row carries, as a function of
the source quantity string. -/
lemma finRow_last2 (fi : FileInfo) (mc : String) (idv dims : List Val) (s : String)
    (y : List Val) (hid : idv.length = 8)
    (h : finRow fi mc idv dims (Val.s s) = some y) :
    (s = "-" → y.getD (12 + dims.length) Val.nan = Val.f 0 0) ∧
    (s ≠ "-" → ∃ mn : Int × Nat, parsePyFloat s = some mn ∧
        y.getD (12 + dims.length) Val.nan = Val.f mn.1 mn.2) ∧
    (∃ m : Int, ∃ e : Nat, y.getD (12 + dims.length) Val.nan = Val.f m e) ∧
    (y.getD (13 + dims.length) Val.nan = Val.i 1 ↔ s = "-") := by
  unfold finRow at h
  simp only [Option.bind_eq_bind] at h
  cases hgen : castInt8 (idv.getD 7 Val.nan) with
  | none => rw [hgen] at h; cases h
  | some gen =>
  rw [hgen] at h
  simp only [Option.some_bind] at h
  cases hpr : castFloat (idv.getD 6 Val.nan) with
  | none => rw [hpr] at h; cases h
  | some pr =>
  rw [hpr] at h
  simp only [Option.some_bind] at h
  cases hq : castFloat (maskQty (Val.s s)) with
  | none => rw [hq] at h; cases h
  | some q2 =>
  rw [hq] at h
  simp only [Option.some_bind, pure, Option.some.injEq] at h
  subst h
  obtain ⟨hq2get, hfget⟩ := getD_snoc2
    (([Val.i (wrap8 fi.nth), Val.i (wrap16 (fi.nth + 2013)), Val.s fi.dosage, Val.s mc] ++
      idv.take 6 ++ [pr, gen]) ++ dims) q2 (flagV (Val.s s)) Val.nan (12 + dims.length)
    (by simp only [List.length_append, List.length_take, List.length_cons, List.length_nil,
          hid]
        omega)
  have hmaskne : s ≠ "-" → maskQty (Val.s s) = Val.s s := by
    intro hs
    unfold maskQty
    rw [if_neg (by intro hc; exact hs (Val.s.inj hc)), if_neg (by intro hc; cases hc)]
  refine ⟨?_, ?_, ?_, ?_⟩
  · intro hs
    subst hs
    rw [hq2get]
    have hc0 : castFloat (maskQty (Val.s "-")) = some (Val.f 0 0) := by decide
    rw [hc0] at hq
    exact (Option.some.inj hq).symm
  · intro hs
    rw [hmaskne hs] at hq
    simp only [castFloat] at hq
    cases hpf : parsePyFloat s with
    | none => rw [hpf] at hq; cases hq
    | some mn =>
      rw [hpf] at hq
      simp only [Option.map_some', Option.some.injEq] at hq
      rw [hq2get]
      exact ⟨mn, rfl, hq.symm⟩
  · rw [hq2get]
    by_cases hs : s = "-"
    · subst hs
      have hc0 : castFloat (maskQty (Val.s "-")) = some (Val.f 0 0) := by decide
      rw [hc0] at hq
      exact ⟨0, 0, (Option.some.inj hq).symm⟩
    · rw [hmaskne hs] at hq
      simp only [castFloat] at hq
      cases hpf : parsePyFloat s with
      | none => rw [hpf] at hq; cases hq
      | some mn =>
        rw [hpf] at hq
        simp only [Option.map_some', Option.some.injEq] at hq
        exact ⟨mn.1, mn.2, hq.symm⟩
  · rw [show 13 + dims.length = 12 + dims.length + 1 from by omega, hfget]
    unfold flagV
    by_cases hs : s = "-"
    · subst hs
      simp
    · rw [if_neg (by intro hc; exact hs (Val.s.inj hc))]
      simp [hs]

/-- Reading a named column of a frame with known header. -/
lemma colVal_at {cs : List ColKey} {c : String} {j : Nat}
    (h : idxOf? (ColKey.name c) cs = some j) (rows : List (List Val)) (y : List Val) :
    colVal ⟨cs, rows⟩ c y = some (y.getD j Val.nan) := by
  show (idxOf? (ColKey.name c) cs).map (fun i2 => y.getD i2 Val.nan) = _
  rw [h]
  rfl

/-- Witness for C8 at a concrete grid, descriptor and care setting. -/
theorem C8_fixed_output_schema_witness :
    wOutSex.cols = (specSchema wFiSex.method).map ColKey.name ∧
      ∀ m1 ∈ method_values, ∀ m2 ∈ method_values,
        (specSchema m1).take 12 = (specSchema m2).take 12 :=
  C8_fixed_output_schema wGridSex wFiSex "入院" wOutSex (by decide) (by decide) (by decide)

/-- C2: on every row of a successful transform of a rectangular dtype=str
grid, the below-threshold flag column is 1 exactly when the source quantity
cell (the pivot cell of the corresponding stacked row) is the literal
suppression marker; a suppressed quantity becomes 0, any other quantity is
its numeric parse, and the quantity column is never blank. -/
theorem C2_threshold_flag (g : Frame) (fi : FileInfo) (mc : String) (out : Frame)
    (hg : g.Rect) (hsc : StrCells g) (hm : fi.method ∈ method_values)
    (h : transform g fi mc = some out) :
    ∃ st, stackOf g = some st ∧ out.rows.length = st.rows.length ∧
      ∀ i, i < out.rows.length →
        ∃ s : String, (st.rows.getD i []).getD 9 Val.nan = Val.s s ∧
          (colVal out "最小集計単位未満" (out.rows.getD i []) = some (Val.i 1) ↔ s = "-") ∧
          (s = "-" → colVal out "処方数量" (out.rows.getD i []) = some (Val.f 0 0)) ∧
          (s ≠ "-" → ∃ mn : Int × Nat, parsePyFloat s = some mn ∧
            colVal out "処方数量" (out.rows.getD i []) = some (Val.f mn.1 mn.2)) ∧
          colVal out "処方数量" (out.rows.getD i []) ≠ some Val.nan := by
  obtain ⟨st, hst⟩ := transform_stackOf h
  refine ⟨st, hst, ?_⟩
  have hlen := stackOf_row_len hg hst
  have hqs := stack_qty_str hg hsc hst
  simp only [method_values, List.mem_cons, List.not_mem_nil, or_false] at hm
  rcases hm with hmm | hmm | hmm
  · rw [transform_sex_nf g fi mc st hst hmm hlen] at h
    cases ho : omap (sexRowF fi mc) st.rows with
    | none => rw [ho] at h; simp at h
    | some rs =>
      rw [ho] at h
      simp only [Option.map_some'] at h
      obtain rfl : (⟨outCols sexDims, rs⟩ : Frame) = out := Option.some.inj h
      obtain ⟨hlen2, hidx⟩ := omap_idx (sexRowF fi mc) [] [] st.rows rs ho
      refine ⟨hlen2, ?_⟩
      intro i hi
      have hi2 : i < rs.length := hi
      have hi' : i < st.rows.length := by rw [hlen2] at hi2; exact hi2
      have hrmem : st.rows.getD i [] ∈ st.rows := getD_mem_of_lt st.rows i [] hi'
      obtain ⟨s, hs9⟩ := hqs _ hrmem
      have hr10 := hlen _ hrmem
      have hXr : sexRowF fi mc (st.rows.getD i []) = some (rs.getD i []) := hidx i hi'
      cases hup : unpackPair ((st.rows.getD i []).getD 8 Val.nan) with
      | none => simp only [sexRowF, hup] at hXr; cases hXr
      | some p =>
      simp only [sexRowF, hup] at hXr
      cases haf : ageFloorStr p.2 with
      | none => simp only [haf] at hXr; cases hXr
      | some age =>
      simp only [haf] at hXr
      rw [hs9] at hXr
      have hid8 : ((st.rows.getD i []).take 8).length = 8 := by
        simp only [List.length_take]
        omega
      obtain ⟨h1, h2, h3, h4⟩ := finRow_last2 fi mc ((st.rows.getD i []).take 8)
        [Val.s (stripSei p.1), Val.i age, Val.s p.2] s (rs.getD i []) hid8 hXr
      have hcvF : colVal (⟨outCols sexDims, rs⟩ : Frame) "最小集計単位未満" (rs.getD i []) =
          some ((rs.getD i []).getD 16 Val.nan) :=
        colVal_at (by decide) rs (rs.getD i [])
      have hcvQ : colVal (⟨outCols sexDims, rs⟩ : Frame) "処方数量" (rs.getD i []) =
          some ((rs.getD i []).getD 15 Val.nan) :=
        colVal_at (by decide) rs (rs.getD i [])
      refine ⟨s, hs9, ?_, ?_, ?_, ?_⟩
      · rw [hcvF]
        simp only [Option.some.injEq]
        exact h4
      · intro hdash
        rw [hcvQ]
        exact congrArg some (h1 hdash)
      · intro hne
        obtain ⟨mn, hpf, hval⟩ := h2 hne
        rw [hcvQ]
        exact ⟨mn, hpf, congrArg some hval⟩
      · obtain ⟨m, e, hf⟩ := h3
        have hf2 : (rs.getD i []).getD 15 Val.nan = Val.f m e := hf
        rw [hcvQ, hf2]
        simp
  · rw [transform_pref_nf g fi mc st hst hmm hlen] at h
    cases ho : omap (prefRowF fi mc) st.rows with
    | none => rw [ho] at h; simp at h
    | some rs =>
      rw [ho] at h
      simp only [Option.map_some'] at h
      obtain rfl : (⟨outCols prefDims, rs⟩ : Frame) = out := Option.some.inj h
      obtain ⟨hlen2, hidx⟩ := omap_idx (prefRowF fi mc) [] [] st.rows rs ho
      refine ⟨hlen2, ?_⟩
      intro i hi
      have hi2 : i < rs.length := hi
      have hi' : i < st.rows.length := by rw [hlen2] at hi2; exact hi2
      have hrmem : st.rows.getD i [] ∈ st.rows := getD_mem_of_lt st.rows i [] hi'
      obtain ⟨s, hs9⟩ := hqs _ hrmem
      have hr10 := hlen _ hrmem
      have hXr : prefRowF fi mc (st.rows.getD i []) = some (rs.getD i []) := hidx i hi'
      cases hup : unpackPair ((st.rows.getD i []).getD 8 Val.nan) with
      | none => simp only [prefRowF, hup] at hXr; cases hXr
      | some p =>
      simp only [prefRowF, hup] at hXr
      rw [hs9] at hXr
      have hid8 : ((st.rows.getD i []).take 8).length = 8 := by
        simp only [List.length_take]
        omega
      obtain ⟨h1, h2, h3, h4⟩ := finRow_last2 fi mc ((st.rows.getD i []).take 8)
        [prefMask (Val.s p.1), Val.s p.2] s (rs.getD i []) hid8 hXr
      have hcvF : colVal (⟨outCols prefDims, rs⟩ : Frame) "最小集計単位未満" (rs.getD i []) =
          some ((rs.getD i []).getD 15 Val.nan) :=
        colVal_at (by decide) rs (rs.getD i [])
      have hcvQ : colVal (⟨outCols prefDims, rs⟩ : Frame) "処方数量" (rs.getD i []) =
          some ((rs.getD i []).getD 14 Val.nan) :=
        colVal_at (by decide) rs (rs.getD i [])
      refine ⟨s, hs9, ?_, ?_, ?_, ?_⟩
      · rw [hcvF]
        simp only [Option.some.injEq]
        exact h4
      · intro hdash
        rw [hcvQ]
        exact congrArg some (h1 hdash)
      · intro hne
        obtain ⟨mn, hpf, hval⟩ := h2 hne
        rw [hcvQ]
        exact ⟨mn, hpf, congrArg some hval⟩
      · obtain ⟨m, e, hf⟩ := h3
        have hf2 : (rs.getD i []).getD 14 Val.nan = Val.f m e := hf
        rw [hcvQ, hf2]
        simp
  · rw [transform_month_nf g fi mc st hst hmm hlen] at h
    cases ho : omap (monthRowF fi mc) st.rows with
    | none => rw [ho] at h; simp at h
    | some rs =>
      rw [ho] at h
      simp only [Option.map_some'] at h
      obtain rfl : (⟨outCols monthDims, rs⟩ : Frame) = out := Option.some.inj h
      obtain ⟨hlen2, hidx⟩ := omap_idx (monthRowF fi mc) [] [] st.rows rs ho
      refine ⟨hlen2, ?_⟩
      intro i hi
      have hi2 : i < rs.length := hi
      have hi' : i < st.rows.length := by rw [hlen2] at hi2; exact hi2
      have hrmem : st.rows.getD i [] ∈ st.rows := getD_mem_of_lt st.rows i [] hi'
      obtain ⟨s, hs9⟩ := hqs _ hrmem
      have hr10 := hlen _ hrmem
      have hXr : monthRowF fi mc (st.rows.getD i []) = some (rs.getD i []) := hidx i hi'
      cases hup : unpackPair ((st.rows.getD i []).getD 8 Val.nan) with
      | none => simp only [monthRowF, hup] at hXr; cases hXr
      | some p =>
      simp only [monthRowF, hup] at hXr
      cases hym : monthYm fi.nth p.1 with
      | none => simp only [hym] at hXr; cases hXr
      | some ym =>
      simp only [hym] at hXr
      rw [hs9] at hXr
      have hid8 : ((st.rows.getD i []).take 8).length = 8 := by
        simp only [List.length_take]
        omega
      obtain ⟨h1, h2, h3, h4⟩ := finRow_last2 fi mc ((st.rows.getD i []).take 8)
        [Val.s p.1, Val.s ym] s (rs.getD i []) hid8 hXr
      have hcvF : colVal (⟨outCols monthDims, rs⟩ : Frame) "最小集計単位未満" (rs.getD i []) =
          some ((rs.getD i []).getD 15 Val.nan) :=
        colVal_at (by decide) rs (rs.getD i [])
      have hcvQ : colVal (⟨outCols monthDims, rs⟩ : Frame) "処方数量" (rs.getD i []) =
          some ((rs.getD i []).getD 14 Val.nan) :=
        colVal_at (by decide) rs (rs.getD i [])
      refine ⟨s, hs9, ?_, ?_, ?_, ?_⟩
      · rw [hcvF]
        simp only [Option.some.injEq]
        exact h4
      · intro hdash
        rw [hcvQ]
        exact congrArg some (h1 hdash)
      · intro hne
        obtain ⟨mn, hpf, hval⟩ := h2 hne
        rw [hcvQ]
        exact ⟨mn, hpf, congrArg some hval⟩
      · obtain ⟨m, e, hf⟩ := h3
        have hf2 : (rs.getD i []).getD 14 Val.nan = Val.f m e := hf
        rw [hcvQ, hf2]
        simp

/-- Witness for C2 at a concrete grid, descriptor and care setting. -/
theorem C2_threshold_flag_witness :
    ∃ st, stackOf wGridSex = some st ∧ wOutSex.rows.length = st.rows.length ∧
      ∀ i, i < wOutSex.rows.length →
        ∃ s : String, (st.rows.getD i []).getD 9 Val.nan = Val.s s ∧
          (colVal wOutSex "最小集計単位未満" (wOutSex.rows.getD i []) = some (Val.i 1) ↔ s = "-") ∧
          (s = "-" → colVal wOutSex "処方数量" (wOutSex.rows.getD i []) = some (Val.f 0 0)) ∧
          (s ≠ "-" → ∃ mn : Int × Nat, parsePyFloat s = some mn ∧
            colVal wOutSex "処方数量" (wOutSex.rows.getD i []) = some (Val.f mn.1 mn.2)) ∧
          colVal wOutSex "処方数量" (wOutSex.rows.getD i []) ≠ some Val.nan :=
  C2_threshold_flag wGridSex wFiSex "入院" wOutSex (by decide) (by decide) (by decide)
    (by decide)

/-- A decimal digit is not Python whitespace. -/
lemma digit_not_pyspace {c : Char} (h : c.isDigit = true) : isPySpace c = false := by
  rcases hc : isPySpace c with _ | _
  · rfl
  · exfalso
    unfold isPySpace at hc
    simp only [Bool.or_eq_true, beq_iff_eq] at hc
    rcases hc with (((((h1 | h1) | h1) | h1) | h1) | h1) | h1 <;>
      (subst h1; exact absurd h (by decide))

/-- takeWhile of a list all of whose elements pass. -/
lemma takeWhile_all {α : Type _} {p : α → Bool} : ∀ (l : List α),
    (∀ c ∈ l, p c = true) → l.takeWhile p = l
  | [], _ => rfl
  | c :: t, h => by
    rw [List.takeWhile_cons, h c (List.mem_cons_self c t),
      takeWhile_all t (fun x hx => h x (List.mem_cons_of_mem c hx))]
    rfl

/-- dropWhile of a list all of whose elements pass. -/
lemma dropWhile_all {α : Type _} {p : α → Bool} : ∀ (l : List α),
    (∀ c ∈ l, p c = true) → l.dropWhile p = []
  | [], _ => rfl
  | c :: t, h => by
    rw [List.dropWhile_cons, h c (List.mem_cons_self c t)]
    show List.dropWhile p t = []
    exact dropWhile_all t (fun x hx => h x (List.mem_cons_of_mem c hx))

/-- The last elements of equal snoc lists agree. -/
lemma append_single_inj {α : Type _} (l1 l2 : List α) (a b : α)
    (h : l1 ++ [a] = l2 ++ [b]) : a = b := by
  have h2 := congrArg List.reverse h
  simp only [List.reverse_append, List.reverse_cons, List.reverse_nil, List.nil_append,
    List.cons_append, List.cons.injEq] at h2
  exact h2.1

/-- Reading inside the left part of an appended list. -/
lemma getD_append_lt {α : Type _} : ∀ (l1 l2 : List α) (n : Nat) (d : α), n < l1.length →
    (l1 ++ l2).getD n d = l1.getD n d
  | [], _, n, d, h => absurd h (by simp)
  | a :: l1, l2, 0, d, _ => rfl
  | a :: l1, l2, n + 1, d, h => by
    simp only [List.cons_append, List.getD_cons_succ]
    exact getD_append_lt l1 l2 n d (by simpa using h)

/-- Python int() of a nonempty all-digit string is its decimal value. -/
lemma parsePyInt_digits (ds : List Char) (hne : ds ≠ [])
    (hdig : ∀ c ∈ ds, c.isDigit = true) :
    parsePyInt (String.mk ds) = some ((digitsToNat ds : Int)) := by
  unfold parsePyInt
  have hdata : (String.mk ds).data = ds := rfl
  rw [hdata]
  rcases ds with _ | ⟨c, t⟩
  · exact absurd rfl hne
  have hcd : c.isDigit = true := hdig c (List.mem_cons_self c t)
  have hdrop : (c :: t).dropWhile isPySpace = c :: t := by
    rw [List.dropWhile_cons, digit_not_pyspace hcd]
    rfl
  rw [hdrop]
  simp only [List.head?_cons, Option.some.injEq]
  have hcm : ¬(c = '-') := by
    intro hc2
    rw [hc2] at hcd
    exact absurd hcd (by decide)
  have hcp : ¬(c = '+') := by
    intro hc2
    rw [hc2] at hcd
    exact absurd hcd (by decide)
  rw [if_neg hcm, if_neg hcp]
  simp only []
  rw [takeWhile_all (c :: t) hdig, dropWhile_all (c :: t) hdig]
  rw [if_neg (by simp)]
  rw [one_mul]

/-- The total month token maps to the literal total marker. -/
lemma monthYm_total (nth : Int) : monthYm nth "総計" = some "総計" := by
  unfold monthYm
  rw [if_pos rfl]

/-- The derived calendar year-month of a well-formed month token: the
trailing marker is dropped, the digits give the month number, and the year
is the reporting fiscal year plus one for months before April. -/
lemma monthYm_month (nth : Int) (ds : List Char) (hne : ds ≠ [])
    (hdig : ∀ c ∈ ds, c.isDigit = true) :
    monthYm nth (String.mk (ds ++ ['月'])) =
      some (if (digitsToNat ds : Int) < 4
        then padZ 4 (nth + 2013 + 1) ++ "/" ++ padZ 2 (digitsToNat ds)
        else padZ 4 (nth + 2013) ++ "/" ++ padZ 2 (digitsToNat ds)) := by
  unfold monthYm
  rw [if_neg (by
    intro hc
    have h2 : ds ++ ['月'] = ['総', '計'] := congrArg String.data hc
    have h3 : ('月' : Char) = '計' := append_single_inj ds ['総'] '月' '計' h2
    exact absurd h3 (by decide))]
  have hdata : (String.mk (ds ++ ['月'])).data = ds ++ ['月'] := rfl
  rw [hdata]
  have hdl : (ds ++ ['月']).dropLast = ds := by simp
  rw [hdl, parsePyInt_digits ds hne hdig]
  rfl

/-- The dimension cells a finalised row carries. -/
lemma finRow_dim_cell (fi : FileInfo) (mc : String) (idv dims : List Val) (qty : Val)
    (y : List Val) (hid : idv.length = 8) (n : Nat) (hn : n < dims.length)
    (h : finRow fi mc idv dims qty = some y) :
    y.getD (12 + n) Val.nan = dims.getD n Val.nan := by
  unfold finRow at h
  simp only [Option.bind_eq_bind] at h
  cases hgen : castInt8 (idv.getD 7 Val.nan) with
  | none => rw [hgen] at h; cases h
  | some gen =>
  rw [hgen] at h
  simp only [Option.some_bind] at h
  cases hpr : castFloat (idv.getD 6 Val.nan) with
  | none => rw [hpr] at h; cases h
  | some pr =>
  rw [hpr] at h
  simp only [Option.some_bind] at h
  cases hq : castFloat (maskQty qty) with
  | none => rw [hq] at h; cases h
  | some q2 =>
  rw [hq] at h
  simp only [Option.some_bind, pure, Option.some.injEq] at h
  subst h
  have hB1 : ([Val.i (wrap8 fi.nth), Val.i (wrap16 (fi.nth + 2013)), Val.s fi.dosage,
      Val.s mc] ++ idv.take 6 ++ [pr, gen]).length = 12 := by
    simp only [List.length_append, List.length_take, List.length_cons, List.length_nil, hid]
    omega
  rw [getD_append_lt]
  · rw [show 12 + n = ([Val.i (wrap8 fi.nth), Val.i (wrap16 (fi.nth + 2013)), Val.s fi.dosage,
        Val.s mc] ++ idv.take 6 ++ [pr, gen]).length + n from by rw [hB1], getD_append_len]
  · rw [List.length_append, hB1]
    omega

/-- C5: on every row of a successful by-month transform, the reporting-month
and calendar-year-month columns hold a token and its derived year-month
related by the derivation function; a total token derives the literal total
marker, and a well-formed month token derives `YYYY/MM` with the fiscal
year cycle+2013, advanced by one for month numbers below four, both parts
zero-padded. -/
theorem C5_month_year_month (g : Frame) (fi : FileInfo) (mc : String) (out : Frame)
    (hg : g.Rect) (hmm : fi.method = "診療月別")
    (h : transform g fi mc = some out) :
    ∃ st, stackOf g = some st ∧ out.rows.length = st.rows.length ∧
      ∀ i, i < out.rows.length →
        ∃ m ym : String,
          colVal out "診療月" (out.rows.getD i []) = some (Val.s m) ∧
          colVal out "診療年月" (out.rows.getD i []) = some (Val.s ym) ∧
          monthYm fi.nth m = some ym ∧
          (m = "総計" → ym = "総計") ∧
          (∀ ds : List Char, ds ≠ [] → (∀ c ∈ ds, c.isDigit = true) →
            m = String.mk (ds ++ ['月']) →
            ym = (if (digitsToNat ds : Int) < 4
              then padZ 4 (fi.nth + 2013 + 1) ++ "/" ++ padZ 2 (digitsToNat ds)
              else padZ 4 (fi.nth + 2013) ++ "/" ++ padZ 2 (digitsToNat ds))) := by
  obtain ⟨st, hst⟩ := transform_stackOf h
  refine ⟨st, hst, ?_⟩
  have hlen := stackOf_row_len hg hst
  rw [transform_month_nf g fi mc st hst hmm hlen] at h
  cases ho : omap (monthRowF fi mc) st.rows with
  | none => rw [ho] at h; simp at h
  | some rs =>
    rw [ho] at h
    simp only [Option.map_some'] at h
    obtain rfl : (⟨outCols monthDims, rs⟩ : Frame) = out := Option.some.inj h
    obtain ⟨hlen2, hidx⟩ := omap_idx (monthRowF fi mc) [] [] st.rows rs ho
    refine ⟨hlen2, ?_⟩
    intro i hi
    have hi2 : i < rs.length := hi
    have hi' : i < st.rows.length := by rw [hlen2] at hi2; exact hi2
    have hrmem : st.rows.getD i [] ∈ st.rows := getD_mem_of_lt st.rows i [] hi'
    have hr10 := hlen _ hrmem
    have hXr : monthRowF fi mc (st.rows.getD i []) = some (rs.getD i []) := hidx i hi'
    cases hup : unpackPair ((st.rows.getD i []).getD 8 Val.nan) with
    | none => simp only [monthRowF, hup] at hXr; cases hXr
    | some p =>
    simp only [monthRowF, hup] at hXr
    cases hym : monthYm fi.nth p.1 with
    | none => simp only [hym] at hXr; cases hXr
    | some ym =>
    simp only [hym] at hXr
    have hid8 : ((st.rows.getD i []).take 8).length = 8 := by
      simp only [List.length_take]
      omega
    have hd0 : (rs.getD i []).getD 12 Val.nan = Val.s p.1 :=
      finRow_dim_cell fi mc ((st.rows.getD i []).take 8) [Val.s p.1, Val.s ym] _
        (rs.getD i []) hid8 0 (by simp) hXr
    have hd1 : (rs.getD i []).getD 13 Val.nan = Val.s ym :=
      finRow_dim_cell fi mc ((st.rows.getD i []).take 8) [Val.s p.1, Val.s ym] _
        (rs.getD i []) hid8 1 (by simp) hXr
    have hcvM : colVal (⟨outCols monthDims, rs⟩ : Frame) "診療月" (rs.getD i []) =
        some ((rs.getD i []).getD 12 Val.nan) :=
      colVal_at (by decide) rs (rs.getD i [])
    have hcvY : colVal (⟨outCols monthDims, rs⟩ : Frame) "診療年月" (rs.getD i []) =
        some ((rs.getD i []).getD 13 Val.nan) :=
      colVal_at (by decide) rs (rs.getD i [])
    refine ⟨p.1, ym, ?_, ?_, hym, ?_, ?_⟩
    · rw [hcvM, hd0]
    · rw [hcvY, hd1]
    · intro ht
      rw [ht, monthYm_total] at hym
      exact (Option.some.inj hym).symm
    · intro ds hne hdig heq
      rw [heq, monthYm_month fi.nth ds hne hdig] at hym
      exact (Option.some.inj hym).symm

/-- Witness for C5 at a concrete by-month grid with a total and an April
column. -/
theorem C5_month_year_month_witness :
    ∃ st, stackOf wGridMonth = some st ∧ wOutMonth.rows.length = st.rows.length ∧
      ∀ i, i < wOutMonth.rows.length →
        ∃ m ym : String,
          colVal wOutMonth "診療月" (wOutMonth.rows.getD i []) = some (Val.s m) ∧
          colVal wOutMonth "診療年月" (wOutMonth.rows.getD i []) = some (Val.s ym) ∧
          monthYm wFiMonth.nth m = some ym ∧
          (m = "総計" → ym = "総計") ∧
          (∀ ds : List Char, ds ≠ [] → (∀ c ∈ ds, c.isDigit = true) →
            m = String.mk (ds ++ ['月']) →
            ym = (if (digitsToNat ds : Int) < 4
              then padZ 4 (wFiMonth.nth + 2013 + 1) ++ "/" ++ padZ 2 (digitsToNat ds)
              else padZ 4 (wFiMonth.nth + 2013) ++ "/" ++ padZ 2 (digitsToNat ds))) :=
  C5_month_year_month wGridMonth wFiMonth "外来（院内）" wOutMonth (by decide) (by decide)
    (by decide)

/-- A successful effectful map draws every output from some input. -/
lemma omap_mem {α β : Type _} {f : α → Option β} : ∀ (l : List α) (l2 : List β),
    omap f l = some l2 → ∀ y ∈ l2, ∃ x ∈ l, f x = some y
  | [], l2, h => by
    cases h
    intro y hy
    cases hy
  | a :: l, l2, h => by
    obtain ⟨b, bs, hfa, ho, rfl⟩ := omap_cons_some h
    intro y hy
    rcases List.mem_cons.mp hy with rfl | hy2
    · exact ⟨a, List.mem_cons_self a l, hfa⟩
    · obtain ⟨x, hx, hfx⟩ := omap_mem l bs ho y hy2
      exact ⟨x, List.mem_cons_of_mem a hx, hfx⟩

/-- The forward fill does not change the header. -/
lemma ffill2_cols (fr : Frame) : (ffill2 fr).cols = fr.cols := by
  unfold ffill2
  split <;> rfl

/-- The header after the canonical renaming. -/
lemma renameCols_cols {a b : Frame} (h : renameCols a = some b) :
    b.cols = (index_cols.map ColKey.name) ++ [ColKey.pair "総計" "総計"] ++ a.cols.drop 9 := by
  unfold renameCols at h
  split at h
  · cases h
    rfl
  · cases h

/-- The pivot-key cell of every stacked row is the synthetic grand-total
pair, a two-level header key of the source grid, or a plain string. -/
lemma stack_key_cases {g st : Frame} (hg : g.Rect) (hst : stackOf g = some st) :
    ∀ r ∈ st.rows, r.getD 8 Val.nan = Val.pair "総計" "総計" ∨
      (∃ a b, r.getD 8 Val.nan = Val.pair a b ∧ ColKey.pair a b ∈ g.cols) ∨
      (∃ v, r.getD 8 Val.nan = Val.s v) := by
  unfold stackOf at hst
  cases hi : insertUnit g with
  | none => rw [hi] at hst; cases hst
  | some a =>
    rw [hi] at hst
    simp only [Option.bind_eq_bind, Option.some_bind] at hst
    cases hrn : renameCols a with
    | none => rw [hrn] at hst; cases hst
    | some b =>
      rw [hrn] at hst
      simp only [Option.some_bind, pure] at hst
      cases hst
      have harect : a.Rect := insertUnit_rect hi hg
      obtain ⟨hlen, h9, hrows⟩ := renameCols_facts hrn
      have hbrect : b.Rect := by
        intro r hr
        rw [hrows] at hr
        rw [hlen]
        exact harect r hr
      have hflen : ∀ r ∈ (ffill2 b).rows, r.length = b.cols.length :=
        ffill2_rows_length hbrect
      have hacols : ∀ c ∈ a.cols, c ∈ g.cols ∨ c = ColKey.name "単位" := by
        intro c hc
        unfold insertUnit at hi
        split at hi
        · cases hi
          exact Or.inl hc
        · split at hi
          · cases hi
          · cases hi
            rcases insIdx_mem 4 (ColKey.name "単位") g.cols c hc with h | h
            · exact Or.inr h
            · exact Or.inl h
      intro r hrr
      simp only [unpivot, List.mem_flatMap, List.mem_filterMap] at hrr
      obtain ⟨r0, hr0, p, hp, hval⟩ := hrr
      split at hval
      · cases hval
      · cases hval
        have hlen8 : (r0.take 8).length = 8 := by
          have hl := hflen r0 hr0
          simp only [List.length_take]
          omega
        have hkey : (r0.take 8 ++ [keyVal p.1, p.2]).getD 8 Val.nan = keyVal p.1 := by
          have h0 := getD_append_len (r0.take 8) [keyVal p.1, p.2] 0 Val.nan
          rw [hlen8] at h0
          simpa using h0
        rw [hkey]
        have hp1 : p.1 ∈ (ffill2 b).cols.drop 8 := (List.of_mem_zip hp).1
        rw [ffill2_cols, renameCols_cols hrn] at hp1
        rw [List.append_assoc] at hp1
        rw [show (8 : Nat) = (index_cols.map ColKey.name).length from by decide,
          List.drop_left] at hp1
        rcases List.mem_cons.mp hp1 with heq | hmem
        · rw [heq]
          exact Or.inl rfl
        · have hmem2 : p.1 ∈ a.cols := List.mem_of_mem_drop hmem
          cases hpc : p.1 with
          | name v => exact Or.inr (Or.inr ⟨v, rfl⟩)
          | pair a1 b1 =>
            rcases hacols _ hmem2 with hmg | hbad
            · rw [hpc] at hmg
              exact Or.inr (Or.inl ⟨a1, b1, rfl, hmg⟩)
            · rw [hpc] at hbad
              cases hbad

/-- A parsed age floor is the sentinel -1 exactly for the total band. -/
lemma ageFloorStr_neg1 {v : String} {a : Int} (h : ageFloorStr v = some a) :
    (a = -1 ↔ v = "総計") := by
  unfold ageFloorStr at h
  split at h
  · rename_i hv
    have ha : (-1 : Int) = a := Option.some.inj h
    exact ⟨fun _ => hv, fun _ => ha.symm⟩
  · rename_i hv
    simp only [] at h
    split at h
    · cases h
    · have h2 := Option.some.inj h
      constructor
      · intro hc
        rw [← h2] at hc
        omega
      · intro hc
        exact absurd hc hv

/-- Stripping the gender suffix cannot lengthen a string. -/
lemma stripSei_len_le (v : String) : (stripSei v).data.length ≤ v.data.length := by
  unfold stripSei
  exact List.length_filter_le _ _

/-- A stripped single-character token is never the total marker. -/
lemma stripSei_single (c : Char) : stripSei (String.mk [c]) ≠ "総計" := by
  intro h
  have h1 := stripSei_len_le (String.mk [c])
  rw [h] at h1
  have h2 : (String.mk [c]).data.length = 1 := rfl
  rw [h2] at h1
  exact absurd h1 (by decide)

/-- A single-character token is never the total marker. -/
lemma single_char_ne_total (c : Char) : String.mk [c] ≠ "総計" := by
  intro h
  have h2 : [c] = ("総計" : String).data := congrArg String.data h
  have h3 := congrArg List.length h2
  have h4 : ([c]).length = 1 := rfl
  rw [h4] at h3
  exact absurd h3 (by decide)

/-- A single-character token is never the total region code. -/
lemma single_char_ne_00 (c : Char) : String.mk [c] ≠ "00" := by
  intro h
  have h2 : [c] = ("00" : String).data := congrArg String.data h
  have h3 := congrArg List.length h2
  have h4 : ([c]).length = 1 := rfl
  rw [h4] at h3
  exact absurd h3 (by decide)

/-- The masked region code is the total sentinel exactly for the total
marker or the sentinel itself. -/
lemma prefMask_eq00 (a : String) :
    (prefMask (Val.s a) = Val.s "00") ↔ (a = "総計" ∨ a = "00") := by
  unfold prefMask
  by_cases h : a = "総計"
  · subst h
    simp
  · rw [if_neg (by intro hc; exact h (Val.s.inj hc))]
    simp [h]

/-- A non-total month token never derives the total year-month. -/
lemma monthYm_ne_total {nth : Int} {m ym : String} (hm2 : m ≠ "総計")
    (h : monthYm nth m = some ym) : ym ≠ "総計" := by
  unfold monthYm at h
  rw [if_neg hm2] at h
  cases hpi : parsePyInt (String.mk m.data.dropLast) with
  | none => rw [hpi] at h; cases h
  | some mo =>
    rw [hpi] at h
    simp only [Option.map_some', Option.some.injEq] at h
    subst h
    intro hc
    have hmem : ('/' : Char) ∈ ("総計" : String).data := by
      rw [← hc]
      split <;>
      · rw [String.data_append, String.data_append]
        exact List.mem_append.mpr (Or.inl (List.mem_append.mpr (Or.inr (by decide))))
    exact absurd hmem (by decide)

/-- Marking on a finalised by-sex-age row: the sex cell is the total marker
exactly when the age cell is the sentinel -1. -/
lemma sexRow_mark {g st : Frame} {fi : FileInfo} {mc : String} (hg : g.Rect)
    (hWF : WFsexF g) (hst : stackOf g = some st) :
    ∀ x ∈ st.rows, ∀ y, sexRowF fi mc x = some y →
      (y.getD 12 Val.nan = Val.s "総計" ↔ y.getD 13 Val.nan = Val.i (-1)) := by
  intro x hx y hXr
  have hx10 := stackOf_row_len hg hst x hx
  cases hup : unpackPair (x.getD 8 Val.nan) with
  | none => simp only [sexRowF, hup] at hXr; cases hXr
  | some p =>
  simp only [sexRowF, hup] at hXr
  cases haf : ageFloorStr p.2 with
  | none => simp only [haf] at hXr; cases hXr
  | some age =>
  simp only [haf] at hXr
  have hid8 : (x.take 8).length = 8 := by
    simp only [List.length_take]
    omega
  have hd0 : y.getD 12 Val.nan = Val.s (stripSei p.1) :=
    finRow_dim_cell fi mc (x.take 8) _ _ y hid8 0 (by simp) hXr
  have hd1 : y.getD 13 Val.nan = Val.i age :=
    finRow_dim_cell fi mc (x.take 8) _ _ y hid8 1 (by simp) hXr
  rw [hd0, hd1]
  simp only [Val.s.injEq, Val.i.injEq]
  have hageiff : age = -1 ↔ p.2 = "総計" := ageFloorStr_neg1 haf
  rcases stack_key_cases hg hst x hx with hk | ⟨a1, b1, hk, hmemg⟩ | ⟨v, hk⟩
  · rw [hk] at hup
    have h2 := hup
    simp only [unpackPair, Option.some.injEq] at h2
    obtain rfl : p = ("総計", "総計") := h2.symm
    rw [hageiff]
    decide
  · rw [hk] at hup
    have h2 := hup
    simp only [unpackPair, Option.some.injEq] at h2
    obtain rfl : p = (a1, b1) := h2.symm
    have hOK : (b1 = "総計") ↔ (stripSei a1 = "総計") := by
      have h3 := hWF _ hmemg
      simp only [sexKeyOK] at h3
      simpa using h3
    rw [hageiff]
    exact hOK.symm
  · rw [hk] at hup
    simp only [unpackPair] at hup
    split at hup
    · rename_i c1 c2 heq
      simp only [Option.some.injEq] at hup
      obtain rfl : p = (String.mk [c1], String.mk [c2]) := hup.symm
      constructor
      · intro hc
        exact absurd hc (stripSei_single c1)
      · intro hc
        rw [hageiff] at hc
        exact absurd hc (single_char_ne_total c2)
    · cases hup

/-- Marking on a finalised by-region row: the region code is the sentinel
"00" exactly when the region name is the total marker. -/
lemma prefRow_mark {g st : Frame} {fi : FileInfo} {mc : String} (hg : g.Rect)
    (hWF : WFprefF g) (hst : stackOf g = some st) :
    ∀ x ∈ st.rows, ∀ y, prefRowF fi mc x = some y →
      (y.getD 12 Val.nan = Val.s "00" ↔ y.getD 13 Val.nan = Val.s "総計") := by
  intro x hx y hXr
  have hx10 := stackOf_row_len hg hst x hx
  cases hup : unpackPair (x.getD 8 Val.nan) with
  | none => simp only [prefRowF, hup] at hXr; cases hXr
  | some p =>
  simp only [prefRowF, hup] at hXr
  have hid8 : (x.take 8).length = 8 := by
    simp only [List.length_take]
    omega
  have hd0 : y.getD 12 Val.nan = prefMask (Val.s p.1) :=
    finRow_dim_cell fi mc (x.take 8) _ _ y hid8 0 (by simp) hXr
  have hd1 : y.getD 13 Val.nan = Val.s p.2 :=
    finRow_dim_cell fi mc (x.take 8) _ _ y hid8 1 (by simp) hXr
  rw [hd0, hd1]
  rw [prefMask_eq00]
  simp only [Val.s.injEq]
  rcases stack_key_cases hg hst x hx with hk | ⟨a1, b1, hk, hmemg⟩ | ⟨v, hk⟩
  · rw [hk] at hup
    have h2 := hup
    simp only [unpackPair, Option.some.injEq] at h2
    obtain rfl : p = ("総計", "総計") := h2.symm
    decide
  · rw [hk] at hup
    have h2 := hup
    simp only [unpackPair, Option.some.injEq] at h2
    obtain rfl : p = (a1, b1) := h2.symm
    have hOK : (a1 = "総計" ∨ a1 = "00") ↔ (b1 = "総計") := by
      have h3 := hWF _ hmemg
      simp only [prefKeyOK] at h3
      rw [beq_iff_eq] at h3
      have h4 : ((a1 == "総計" || a1 == "00") = true) ↔ ((b1 == "総計") = true) := by
        rw [h3]
      simpa using h4
    exact hOK
  · rw [hk] at hup
    simp only [unpackPair] at hup
    split at hup
    · rename_i c1 c2 heq
      simp only [Option.some.injEq] at hup
      obtain rfl : p = (String.mk [c1], String.mk [c2]) := hup.symm
      constructor
      · intro hc
        rcases hc with hc | hc
        · exact absurd hc (single_char_ne_total c1)
        · exact absurd hc (single_char_ne_00 c1)
      · intro hc
        exact absurd hc (single_char_ne_total c2)
    · cases hup

/-- Marking on a finalised by-month row: the month cell is the total marker
exactly when the derived year-month cell is. -/
lemma monthRow_mark {g st : Frame} {fi : FileInfo} {mc : String} (hg : g.Rect)
    (hst : stackOf g = some st) :
    ∀ x ∈ st.rows, ∀ y, monthRowF fi mc x = some y →
      (y.getD 12 Val.nan = Val.s "総計" ↔ y.getD 13 Val.nan = Val.s "総計") := by
  intro x hx y hXr
  have hx10 := stackOf_row_len hg hst x hx
  cases hup : unpackPair (x.getD 8 Val.nan) with
  | none => simp only [monthRowF, hup] at hXr; cases hXr
  | some p =>
  simp only [monthRowF, hup] at hXr
  cases hym : monthYm fi.nth p.1 with
  | none => simp only [hym] at hXr; cases hXr
  | some ym =>
  simp only [hym] at hXr
  have hid8 : (x.take 8).length = 8 := by
    simp only [List.length_take]
    omega
  have hd0 : y.getD 12 Val.nan = Val.s p.1 :=
    finRow_dim_cell fi mc (x.take 8) _ _ y hid8 0 (by simp) hXr
  have hd1 : y.getD 13 Val.nan = Val.s ym :=
    finRow_dim_cell fi mc (x.take 8) _ _ y hid8 1 (by simp) hXr
  rw [hd0, hd1]
  simp only [Val.s.injEq]
  constructor
  · intro hc
    rw [hc, monthYm_total] at hym
    exact (Option.some.inj hym).symm
  · intro hc
    by_contra hne
    exact monthYm_ne_total hne hym hc

/-- C1: per sheet, the default table (include_total left False) is exactly
the include_total table minus the rows whose method marker column is the
total token, so it contains no total rows — for by-sex-age neither the
total sex marker nor the age sentinel -1, for by-region neither the "00"
code sentinel nor the total region name, for by-month neither a total
month nor a total year-month; and on the include_total table the sentinels
mark exactly the total rows: age -1 iff sex total, region code "00" iff
region name total, month total iff year-month total. -/
theorem C1_total_row_policy (g : Frame) (fi : FileInfo) (mc : String) (outT outF : Frame)
    (hg : g.Rect)
    (hWFs : fi.method = "性年齢別" → WFsexF g)
    (hWFp : fi.method = "都道府県別" → WFprefF g)
    (hm : fi.method ∈ method_values)
    (hT : transform g fi mc = some outT)
    (hF : dropTotalFor fi outT = some outF) :
    (fi.method = "性年齢別" →
      outF.rows = outT.rows.filter
        (fun r => !(r.getD 12 Val.nan == Val.s "総計")) ∧
      (∀ r ∈ outT.rows,
        (colVal outT "性別" r = some (Val.s "総計") ↔
          colVal outT "年齢" r = some (Val.i (-1)))) ∧
      (∀ r ∈ outF.rows,
        colVal outF "性別" r ≠ some (Val.s "総計") ∧
        colVal outF "年齢" r ≠ some (Val.i (-1)))) ∧
    (fi.method = "都道府県別" →
      outF.rows = outT.rows.filter
        (fun r => !(r.getD 13 Val.nan == Val.s "総計")) ∧
      (∀ r ∈ outT.rows,
        (colVal outT "都道府県コード" r = some (Val.s "00") ↔
          colVal outT "都道府県名" r = some (Val.s "総計"))) ∧
      (∀ r ∈ outF.rows,
        colVal outF "都道府県コード" r ≠ some (Val.s "00") ∧
        colVal outF "都道府県名" r ≠ some (Val.s "総計"))) ∧
    (fi.method = "診療月別" →
      outF.rows = outT.rows.filter
        (fun r => !(r.getD 12 Val.nan == Val.s "総計")) ∧
      (∀ r ∈ outT.rows,
        (colVal outT "診療月" r = some (Val.s "総計") ↔
          colVal outT "診療年月" r = some (Val.s "総計"))) ∧
      (∀ r ∈ outF.rows,
        colVal outF "診療月" r ≠ some (Val.s "総計") ∧
        colVal outF "診療年月" r ≠ some (Val.s "総計"))) := by
  obtain ⟨st, hst⟩ := transform_stackOf hT
  have hlenrows := stackOf_row_len hg hst
  simp only [method_values, List.mem_cons, List.not_mem_nil, or_false] at hm
  rcases hm with hmm | hmm | hmm
  · rw [transform_sex_nf g fi mc st hst hmm hlenrows] at hT
    cases ho : omap (sexRowF fi mc) st.rows with
    | none => rw [ho] at hT; simp at hT
    | some rs =>
    rw [ho] at hT
    simp only [Option.map_some'] at hT
    obtain rfl : (⟨outCols sexDims, rs⟩ : Frame) = outT := Option.some.inj hT
    unfold dropTotalFor at hF
    rw [if_pos hmm] at hF
    unfold dropTotal at hF
    rw [show (⟨outCols sexDims, rs⟩ : Frame).cols = outCols sexDims from rfl,
      show (⟨outCols sexDims, rs⟩ : Frame).rows = rs from rfl,
      show idxOf? (ColKey.name "性別") (outCols sexDims) = some 12 from by decide] at hF
    simp only [] at hF
    obtain rfl : (⟨outCols sexDims,
        rs.filter (fun r => !(r.getD 12 Val.nan == Val.s "総計"))⟩ : Frame) = outF :=
      Option.some.inj hF
    refine ⟨fun _ => ⟨rfl, ?_, ?_⟩,
      fun hmp => absurd (hmm.symm.trans hmp) (by decide),
      fun hmo => absurd (hmm.symm.trans hmo) (by decide)⟩
    · intro r hrT
      obtain ⟨x, hxmem, hXr⟩ := omap_mem st.rows rs ho r hrT
      rw [colVal_at (show idxOf? (ColKey.name "性別") (outCols sexDims) = some 12
            from by decide) rs r,
        colVal_at (show idxOf? (ColKey.name "年齢") (outCols sexDims) = some 13
            from by decide) rs r]
      simp only [Option.some.injEq]
      exact sexRow_mark hg (hWFs hmm) hst x hxmem r hXr
    · intro r hrF
      have hrF2 : r ∈ rs.filter (fun r => !(r.getD 12 Val.nan == Val.s "総計")) := hrF
      obtain ⟨hrT, hpred⟩ := List.mem_filter.mp hrF2
      have hne : ¬(r.getD 12 Val.nan = Val.s "総計") := by simpa using hpred
      obtain ⟨x, hxmem, hXr⟩ := omap_mem st.rows rs ho r hrT
      have hiff := sexRow_mark hg (hWFs hmm) hst x hxmem r hXr
      constructor
      · rw [colVal_at (show idxOf? (ColKey.name "性別") (outCols sexDims) = some 12
            from by decide) _ r]
        intro hc
        exact hne (Option.some.inj hc)
      · rw [colVal_at (show idxOf? (ColKey.name "年齢") (outCols sexDims) = some 13
            from by decide) _ r]
        intro hc
        exact hne (hiff.mpr (Option.some.inj hc))
  · rw [transform_pref_nf g fi mc st hst hmm hlenrows] at hT
    cases ho : omap (prefRowF fi mc) st.rows with
    | none => rw [ho] at hT; simp at hT
    | some rs =>
    rw [ho] at hT
    simp only [Option.map_some'] at hT
    obtain rfl : (⟨outCols prefDims, rs⟩ : Frame) = outT := Option.some.inj hT
    unfold dropTotalFor at hF
    rw [if_neg (by rw [hmm]; decide), if_pos hmm] at hF
    unfold dropTotal at hF
    rw [show (⟨outCols prefDims, rs⟩ : Frame).cols = outCols prefDims from rfl,
      show (⟨outCols prefDims, rs⟩ : Frame).rows = rs from rfl,
      show idxOf? (ColKey.name "都道府県名") (outCols prefDims) = some 13 from by decide] at hF
    simp only [] at hF
    obtain rfl : (⟨outCols prefDims,
        rs.filter (fun r => !(r.getD 13 Val.nan == Val.s "総計"))⟩ : Frame) = outF :=
      Option.some.inj hF
    refine ⟨fun hms => absurd (hmm.symm.trans hms) (by decide),
      fun _ => ⟨rfl, ?_, ?_⟩,
      fun hmo => absurd (hmm.symm.trans hmo) (by decide)⟩
    · intro r hrT
      obtain ⟨x, hxmem, hXr⟩ := omap_mem st.rows rs ho r hrT
      rw [colVal_at (show idxOf? (ColKey.name "都道府県コード") (outCols prefDims) = some 12
            from by decide) rs r,
        colVal_at (show idxOf? (ColKey.name "都道府県名") (outCols prefDims) = some 13
            from by decide) rs r]
      simp only [Option.some.injEq]
      exact prefRow_mark hg (hWFp hmm) hst x hxmem r hXr
    · intro r hrF
      have hrF2 : r ∈ rs.filter (fun r => !(r.getD 13 Val.nan == Val.s "総計")) := hrF
      obtain ⟨hrT, hpred⟩ := List.mem_filter.mp hrF2
      have hne : ¬(r.getD 13 Val.nan = Val.s "総計") := by simpa using hpred
      obtain ⟨x, hxmem, hXr⟩ := omap_mem st.rows rs ho r hrT
      have hiff := prefRow_mark hg (hWFp hmm) hst x hxmem r hXr
      constructor
      · rw [colVal_at (show idxOf? (ColKey.name "都道府県コード") (outCols prefDims) = some 12
            from by decide) _ r]
        intro hc
        exact hne (hiff.mp (Option.some.inj hc))
      · rw [colVal_at (show idxOf? (ColKey.name "都道府県名") (outCols prefDims) = some 13
            from by decide) _ r]
        intro hc
        exact hne (Option.some.inj hc)
  · rw [transform_month_nf g fi mc st hst hmm hlenrows] at hT
    cases ho : omap (monthRowF fi mc) st.rows with
    | none => rw [ho] at hT; simp at hT
    | some rs =>
    rw [ho] at hT
    simp only [Option.map_some'] at hT
    obtain rfl : (⟨outCols monthDims, rs⟩ : Frame) = outT := Option.some.inj hT
    unfold dropTotalFor at hF
    rw [if_neg (by rw [hmm]; decide), if_neg (by rw [hmm]; decide), if_pos hmm] at hF
    unfold dropTotal at hF
    rw [show (⟨outCols monthDims, rs⟩ : Frame).cols = outCols monthDims from rfl,
      show (⟨outCols monthDims, rs⟩ : Frame).rows = rs from rfl,
      show idxOf? (ColKey.name "診療月") (outCols monthDims) = some 12 from by decide] at hF
    simp only [] at hF
    obtain rfl : (⟨outCols monthDims,
        rs.filter (fun r => !(r.getD 12 Val.nan == Val.s "総計"))⟩ : Frame) = outF :=
      Option.some.inj hF
    refine ⟨fun hms => absurd (hmm.symm.trans hms) (by decide),
      fun hmp => absurd (hmm.symm.trans hmp) (by decide),
      fun _ => ⟨rfl, ?_, ?_⟩⟩
    · intro r hrT
      obtain ⟨x, hxmem, hXr⟩ := omap_mem st.rows rs ho r hrT
      rw [colVal_at (show idxOf? (ColKey.name "診療月") (outCols monthDims) = some 12
            from by decide) rs r,
        colVal_at (show idxOf? (ColKey.name "診療年月") (outCols monthDims) = some 13
            from by decide) rs r]
      simp only [Option.some.injEq]
      exact monthRow_mark hg hst x hxmem r hXr
    · intro r hrF
      have hrF2 : r ∈ rs.filter (fun r => !(r.getD 12 Val.nan == Val.s "総計")) := hrF
      obtain ⟨hrT, hpred⟩ := List.mem_filter.mp hrF2
      have hne : ¬(r.getD 12 Val.nan = Val.s "総計") := by simpa using hpred
      obtain ⟨x, hxmem, hXr⟩ := omap_mem st.rows rs ho r hrT
      have hiff := monthRow_mark hg hst x hxmem r hXr
      constructor
      · rw [colVal_at (show idxOf? (ColKey.name "診療月") (outCols monthDims) = some 12
            from by decide) _ r]
        intro hc
        exact hne (Option.some.inj hc)
      · rw [colVal_at (show idxOf? (ColKey.name "診療年月") (outCols monthDims) = some 13
            from by decide) _ r]
        intro hc
        exact hne (hiff.mpr (Option.some.inj hc))

/-- Witness for C1 at a concrete by-sex-age grid whose transform has one
total row and one detail row. -/
theorem C1_total_row_policy_witness :
    (wFiSex.method = "性年齢別" →
      wOutSexF.rows = wOutSex.rows.filter
        (fun r => !(r.getD 12 Val.nan == Val.s "総計")) ∧
      (∀ r ∈ wOutSex.rows,
        (colVal wOutSex "性別" r = some (Val.s "総計") ↔
          colVal wOutSex "年齢" r = some (Val.i (-1)))) ∧
      (∀ r ∈ wOutSexF.rows,
        colVal wOutSexF "性別" r ≠ some (Val.s "総計") ∧
        colVal wOutSexF "年齢" r ≠ some (Val.i (-1)))) ∧
    (wFiSex.method = "都道府県別" →
      wOutSexF.rows = wOutSex.rows.filter
        (fun r => !(r.getD 13 Val.nan == Val.s "総計")) ∧
      (∀ r ∈ wOutSex.rows,
        (colVal wOutSex "都道府県コード" r = some (Val.s "00") ↔
          colVal wOutSex "都道府県名" r = some (Val.s "総計"))) ∧
      (∀ r ∈ wOutSexF.rows,
        colVal wOutSexF "都道府県コード" r ≠ some (Val.s "00") ∧
        colVal wOutSexF "都道府県名" r ≠ some (Val.s "総計"))) ∧
    (wFiSex.method = "診療月別" →
      wOutSexF.rows = wOutSex.rows.filter
        (fun r => !(r.getD 12 Val.nan == Val.s "総計")) ∧
      (∀ r ∈ wOutSex.rows,
        (colVal wOutSex "診療月" r = some (Val.s "総計") ↔
          colVal wOutSex "診療年月" r = some (Val.s "総計"))) ∧
      (∀ r ∈ wOutSexF.rows,
        colVal wOutSexF "診療月" r ≠ some (Val.s "総計") ∧
        colVal wOutSexF "診療年月" r ≠ some (Val.s "総計"))) :=
  C1_total_row_policy wGridSex wFiSex "入院" wOutSex wOutSexF (by decide)
    (fun _ => by decide) (fun h => absurd h (by decide)) (by decide) (by decide) (by decide)

end NDB
